import Mathlib

/-!
Verification development for the rcnbuild-paas control plane.

The definitions below are a shallow embedding of the Go source:
bytes are natural numbers below 256, byte strings are lists of naturals,
machine-integer overflow is modelled with explicit reduction modulo a power
of two, and fallible operations return Option or Except.  Each definition
states in its doc comment which source function it embeds.
-/

set_option maxRecDepth 8192
set_option maxHeartbeats 1000000

deriving instance DecidableEq for Except

namespace RcnBuild

/-! ## Byte helpers -/

/-- Big-endian byte decomposition of a natural number into `w` bytes,
matching the layout Go produces with binary.BigEndian. -/
def toBytesBE (w n : Nat) : List Nat :=
  (List.range w).map (fun i => n / 256 ^ (w - 1 - i) % 256)

/-- Big-endian byte composition, the inverse of toBytesBE. -/
def fromBytesBE (bs : List Nat) : Nat :=
  bs.foldl (fun acc b => acc * 256 + b) 0

/-- ASCII bytes of a string; models the Go conversion from string to a byte
slice for the ASCII strings that occur in this code base. -/
def strBytes (s : String) : List Nat :=
  s.data.map Char.toNat

/-! ## SHA-256 (FIPS 180-4), the reference hash behind crypto/sha256 -/

namespace Sha256

/-- Word size reduction for 32-bit arithmetic. -/
def w32 (n : Nat) : Nat := n % 2 ^ 32

/-- Right rotation of a 32-bit word. -/
def rotr (k x : Nat) : Nat := w32 (x / 2 ^ k + x * 2 ^ (32 - k))

/-- Bitwise complement of a 32-bit word. -/
def not32 (x : Nat) : Nat := x ^^^ (2 ^ 32 - 1)

def ch (x y z : Nat) : Nat := (x &&& y) ^^^ (not32 x &&& z)

def maj (x y z : Nat) : Nat := (x &&& y) ^^^ (x &&& z) ^^^ (y &&& z)

def bigSigma0 (x : Nat) : Nat := rotr 2 x ^^^ rotr 13 x ^^^ rotr 22 x

def bigSigma1 (x : Nat) : Nat := rotr 6 x ^^^ rotr 11 x ^^^ rotr 25 x

def smallSigma0 (x : Nat) : Nat := rotr 7 x ^^^ rotr 18 x ^^^ x / 2 ^ 3

def smallSigma1 (x : Nat) : Nat := rotr 17 x ^^^ rotr 19 x ^^^ x / 2 ^ 10

/-- Round constants K of FIPS 180-4 (decimal values). -/
def kTable : List Nat :=
  [1116352408, 1899447441, 3049323471, 3921009573, 961987163,
   1508970993, 2453635748, 2870763221, 3624381080, 310598401,
   607225278, 1426881987, 1925078388, 2162078206, 2614888103,
   3248222580, 3835390401, 4022224774, 264347078, 604807628,
   770255983, 1249150122, 1555081692, 1996064986, 2554220882,
   2821834349, 2952996808, 3210313671, 3336571891, 3584528711,
   113926993, 338241895, 666307205, 773529912, 1294757372,
   1396182291, 1695183700, 1986661051, 2177026350, 2456956037,
   2730485921, 2820302411, 3259730800, 3345764771, 3516065817,
   3600352804, 4094571909, 275423344, 430227734, 506948616,
   659060556, 883997877, 958139571, 1322822218, 1537002063,
   1747873779, 1955562222, 2024104815, 2227730452, 2361852424,
   2428436474, 2756734187, 3204031479, 3329325298]

/-- Initial hash state H0 (decimal values). -/
def h0 : List Nat :=
  [1779033703, 3144134277, 1013904242, 2773480762,
   1359893119, 2600822924, 528734635, 1541459225]

/-- SHA-256 message padding: append 0x80, zero bytes, and the 64-bit
message bit length. -/
def pad (msg : List Nat) : List Nat :=
  let l := msg.length
  let zeros := (56 + 64 - (l + 1) % 64) % 64
  msg ++ [0x80] ++ List.replicate zeros 0 ++ toBytesBE 8 (8 * l)

/-- Message schedule: extend 16 words to 64. -/
def schedule (ws : List Nat) : List Nat :=
  let step := fun (acc : List Nat) (t : Nat) =>
    let a := acc.getD (t - 2) 0
    let b := acc.getD (t - 7) 0
    let c := acc.getD (t - 15) 0
    let d := acc.getD (t - 16) 0
    acc ++ [w32 (smallSigma1 a + b + smallSigma0 c + d)]
  (List.range 48).foldl (fun acc i => step acc (16 + i)) ws

/-- One compression round. -/
def round (st : List Nat) (kw : Nat × Nat) : List Nat :=
  match st with
  | [a, b, c, d, e, f, g, h] =>
    let t1 := w32 (h + bigSigma1 e + ch e f g + kw.1 + kw.2)
    let t2 := w32 (bigSigma0 a + maj a b c)
    [w32 (t1 + t2), a, b, c, w32 (d + t1), e, f, g]
  | other => other

/-- Compress one 64-byte block into the running state. -/
def compress (st : List Nat) (block : List Nat) : List Nat :=
  let ws0 := (List.range 16).map (fun i =>
    fromBytesBE ((block.drop (4 * i)).take 4))
  let ws := schedule ws0
  let fin := (kTable.zip ws).foldl round st
  (st.zip fin).map (fun p => w32 (p.1 + p.2))

/-- Split a byte list into 64-byte blocks; the fuel argument only bounds
the recursion and is at least the block count whenever it is at least the
list length. -/
def blocks64Aux : Nat → List Nat → List (List Nat)
  | 0, _ => []
  | _, [] => []
  | fuel + 1, b :: l => (b :: l).take 64 :: blocks64Aux fuel ((b :: l).drop 64)

def blocks64 (l : List Nat) : List (List Nat) :=
  blocks64Aux l.length l

/-- SHA-256 digest of a byte list, as 32 bytes. -/
def sha256 (msg : List Nat) : List Nat :=
  ((blocks64 (pad msg)).foldl compress h0).flatMap (toBytesBE 4)

end Sha256

/-- HMAC-SHA-256 as computed by crypto/hmac over crypto/sha256, used by the
webhook signature check. -/
def hmacSha256 (key msg : List Nat) : List Nat :=
  let key1 := if key.length > 64 then Sha256.sha256 key else key
  let key0 := key1 ++ List.replicate (64 - key1.length) 0
  let ipad := key0.map (fun b => b ^^^ 0x36)
  let opad := key0.map (fun b => b ^^^ 0x5c)
  Sha256.sha256 (opad ++ Sha256.sha256 (ipad ++ msg))

/-! ## Lowercase hex, as encoding/hex -/

/-- Lowercase hexadecimal digit for a value below 16. -/
def hexDigit (n : Nat) : Char :=
  "0123456789abcdef".toList.getD n '0'

/-- Hex encoding of a byte list, as hex.EncodeToString. -/
def hexEncode (bs : List Nat) : String :=
  String.mk (bs.flatMap (fun b => [hexDigit (b / 16), hexDigit (b % 16)]))

/-- Value of one hex digit, none for a non-hex character. -/
def hexDigitVal (c : Char) : Option Nat :=
  if '0' ≤ c ∧ c ≤ '9' then some (c.toNat - '0'.toNat)
  else if 'a' ≤ c ∧ c ≤ 'f' then some (c.toNat - 'a'.toNat + 10)
  else if 'A' ≤ c ∧ c ≤ 'F' then some (c.toNat - 'A'.toNat + 10)
  else none

/-- Hex decoding of a string, as hex.DecodeString: fails on odd length or
an invalid digit. -/
def hexDecodeList : List Char → Option (List Nat)
  | [] => some []
  | [_] => none
  | c0 :: c1 :: rest => do
    let h ← hexDigitVal c0
    let l ← hexDigitVal c1
    let tail ← hexDecodeList rest
    pure ((h * 16 + l) :: tail)

def hexDecode (s : String) : Option (List Nat) :=
  hexDecodeList s.toList

/-! ## Standard base64 with padding, as encoding/base64 StdEncoding.

The Go decoder used by the source (DecodeString on the default, non-strict
StdEncoding) rejects invalid characters, misplaced padding and lengths not
a multiple of four, but does not require the unused trailing bits of the
final group to be zero. -/

namespace Base64

def alphabet : List Char :=
  "ABCDEFGHIJKLMNOPQRSTUVWXYZabcdefghijklmnopqrstuvwxyz0123456789+/".toList

/-- Character for a 6-bit value. -/
def enc6 (n : Nat) : Char := alphabet.getD n 'A'

/-- Value of a base64 character, none for characters outside the alphabet. -/
def dec6 (c : Char) : Option Nat :=
  let i := alphabet.indexOf c
  if i < 64 then some i else none

/-- Encode a byte list in 3-byte groups. -/
def encodeBytes : List Nat → List Char
  | [] => []
  | [b0] => [enc6 (b0 / 4), enc6 (b0 % 4 * 16), '=', '=']
  | [b0, b1] => [enc6 (b0 / 4), enc6 (b0 % 4 * 16 + b1 / 16), enc6 (b1 % 16 * 4), '=']
  | b0 :: b1 :: b2 :: rest =>
    enc6 (b0 / 4) :: enc6 (b0 % 4 * 16 + b1 / 16) ::
      enc6 (b1 % 16 * 4 + b2 / 64) :: enc6 (b2 % 64) :: encodeBytes rest

/-- Decode the final 4-character group, allowing one or two padding
characters and ignoring non-zero unused trailing bits (non-strict mode). -/
def decodeLast (c0 c1 c2 c3 : Char) : Option (List Nat) := do
  let v0 ← dec6 c0
  let v1 ← dec6 c1
  if c2 = '=' then
    if c3 = '=' then pure [v0 * 4 + v1 / 16] else none
  else
    let v2 ← dec6 c2
    if c3 = '=' then pure [v0 * 4 + v1 / 16, v1 % 16 * 16 + v2 / 4]
    else
      let v3 ← dec6 c3
      pure [v0 * 4 + v1 / 16, v1 % 16 * 16 + v2 / 4, v2 % 4 * 64 + v3]

/-- Decode a character list in 4-character groups; padding may appear only
in the final group. -/
def decodeChars : List Char → Option (List Nat)
  | [] => some []
  | c0 :: c1 :: c2 :: c3 :: rest =>
    match rest with
    | [] => decodeLast c0 c1 c2 c3
    | _ :: _ => do
      let v0 ← dec6 c0
      let v1 ← dec6 c1
      let v2 ← dec6 c2
      let v3 ← dec6 c3
      let tail ← decodeChars rest
      pure ((v0 * 4 + v1 / 16) :: (v1 % 16 * 16 + v2 / 4) :: (v2 % 4 * 64 + v3) :: tail)
  | _ => none

/-- base64.StdEncoding.EncodeToString. -/
def encodeToString (bs : List Nat) : String := String.mk (encodeBytes bs)

/-- base64.StdEncoding.DecodeString. -/
def decodeString (s : String) : Option (List Nat) := decodeChars s.toList

end Base64

/-! ## AES-256 block encryption, the cipher behind crypto/aes -/

namespace Aes

/-- The AES S-box. -/
def sboxTable : List Nat :=
  [0x63, 0x7c, 0x77, 0x7b, 0xf2, 0x6b, 0x6f, 0xc5, 0x30, 0x01, 0x67, 0x2b, 0xfe, 0xd7, 0xab, 0x76,
   0xca, 0x82, 0xc9, 0x7d, 0xfa, 0x59, 0x47, 0xf0, 0xad, 0xd4, 0xa2, 0xaf, 0x9c, 0xa4, 0x72, 0xc0,
   0xb7, 0xfd, 0x93, 0x26, 0x36, 0x3f, 0xf7, 0xcc, 0x34, 0xa5, 0xe5, 0xf1, 0x71, 0xd8, 0x31, 0x15,
   0x04, 0xc7, 0x23, 0xc3, 0x18, 0x96, 0x05, 0x9a, 0x07, 0x12, 0x80, 0xe2, 0xeb, 0x27, 0xb2, 0x75,
   0x09, 0x83, 0x2c, 0x1a, 0x1b, 0x6e, 0x5a, 0xa0, 0x52, 0x3b, 0xd6, 0xb3, 0x29, 0xe3, 0x2f, 0x84,
   0x53, 0xd1, 0x00, 0xed, 0x20, 0xfc, 0xb1, 0x5b, 0x6a, 0xcb, 0xbe, 0x39, 0x4a, 0x4c, 0x58, 0xcf,
   0xd0, 0xef, 0xaa, 0xfb, 0x43, 0x4d, 0x33, 0x85, 0x45, 0xf9, 0x02, 0x7f, 0x50, 0x3c, 0x9f, 0xa8,
   0x51, 0xa3, 0x40, 0x8f, 0x92, 0x9d, 0x38, 0xf5, 0xbc, 0xb6, 0xda, 0x21, 0x10, 0xff, 0xf3, 0xd2,
   0xcd, 0x0c, 0x13, 0xec, 0x5f, 0x97, 0x44, 0x17, 0xc4, 0xa7, 0x7e, 0x3d, 0x64, 0x5d, 0x19, 0x73,
   0x60, 0x81, 0x4f, 0xdc, 0x22, 0x2a, 0x90, 0x88, 0x46, 0xee, 0xb8, 0x14, 0xde, 0x5e, 0x0b, 0xdb,
   0xe0, 0x32, 0x3a, 0x0a, 0x49, 0x06, 0x24, 0x5c, 0xc2, 0xd3, 0xac, 0x62, 0x91, 0x95, 0xe4, 0x79,
   0xe7, 0xc8, 0x37, 0x6d, 0x8d, 0xd5, 0x4e, 0xa9, 0x6c, 0x56, 0xf4, 0xea, 0x65, 0x7a, 0xae, 0x08,
   0xba, 0x78, 0x25, 0x2e, 0x1c, 0xa6, 0xb4, 0xc6, 0xe8, 0xdd, 0x74, 0x1f, 0x4b, 0xbd, 0x8b, 0x8a,
   0x70, 0x3e, 0xb5, 0x66, 0x48, 0x03, 0xf6, 0x0e, 0x61, 0x35, 0x57, 0xb9, 0x86, 0xc1, 0x1d, 0x9e,
   0xe1, 0xf8, 0x98, 0x11, 0x69, 0xd9, 0x8e, 0x94, 0x9b, 0x1e, 0x87, 0xe9, 0xce, 0x55, 0x28, 0xdf,
   0x8c, 0xa1, 0x89, 0x0d, 0xbf, 0xe6, 0x42, 0x68, 0x41, 0x99, 0x2d, 0x0f, 0xb0, 0x54, 0xbb, 0x16]

/-- S-box substitution of one byte. -/
def sbox (b : Nat) : Nat := sboxTable.getD (b % 256) 0

/-- Multiplication by x in GF(2^8). -/
def xtime (b : Nat) : Nat :=
  ((2 * b) ^^^ (if 128 ≤ b % 256 then 0x11b else 0)) % 256

/-- One mixed column. -/
def mixCol (a0 a1 a2 a3 : Nat) : List Nat :=
  [xtime a0 ^^^ (xtime a1 ^^^ a1) ^^^ a2 ^^^ a3,
   a0 ^^^ xtime a1 ^^^ (xtime a2 ^^^ a2) ^^^ a3,
   a0 ^^^ a1 ^^^ xtime a2 ^^^ (xtime a3 ^^^ a3),
   (xtime a0 ^^^ a0) ^^^ a1 ^^^ a2 ^^^ xtime a3]

/-- SubBytes on a 16-byte state. -/
def subBytes (s : List Nat) : List Nat := s.map sbox

/-- ShiftRows on a 16-byte state in column-major layout. -/
def shiftRows (s : List Nat) : List Nat :=
  (List.range 16).map (fun i => s.getD (i % 4 + 4 * ((i / 4 + i % 4) % 4)) 0)

/-- MixColumns on a 16-byte state. -/
def mixColumns (s : List Nat) : List Nat :=
  (List.range 4).flatMap (fun c =>
    mixCol (s.getD (4 * c) 0) (s.getD (4 * c + 1) 0)
      (s.getD (4 * c + 2) 0) (s.getD (4 * c + 3) 0))

/-- AddRoundKey on a 16-byte state. -/
def addRoundKey (s rk : List Nat) : List Nat :=
  List.zipWith (· ^^^ ·) s rk

/-- Round constants for the AES-256 key schedule. -/
def rcon : List Nat := [0x01, 0x02, 0x04, 0x08, 0x10, 0x20, 0x40]

/-- SubWord on a 4-byte word. -/
def subWord (w : List Nat) : List Nat := w.map sbox

/-- RotWord on a 4-byte word. -/
def rotWord (w : List Nat) : List Nat := w.drop 1 ++ w.take 1

/-- AES-256 key expansion: 60 four-byte words from a 32-byte key. -/
def expandKey (key : List Nat) : List (List Nat) :=
  let ws0 := (List.range 8).map (fun i => (key.drop (4 * i)).take 4)
  (List.range 52).foldl (fun ws j =>
    let i := j + 8
    let prev := ws.getD (i - 1) [0, 0, 0, 0]
    let temp :=
      if i % 8 = 0 then
        List.zipWith (· ^^^ ·) (subWord (rotWord prev))
          [rcon.getD (i / 8 - 1) 0, 0, 0, 0]
      else if i % 8 = 4 then subWord prev
      else prev
    ws ++ [List.zipWith (· ^^^ ·) (ws.getD (i - 8) [0, 0, 0, 0]) temp]) ws0

/-- Round key for round i: four consecutive schedule words. -/
def roundKey (ws : List (List Nat)) (i : Nat) : List Nat :=
  ws.getD (4 * i) [0, 0, 0, 0] ++ ws.getD (4 * i + 1) [0, 0, 0, 0] ++
    ws.getD (4 * i + 2) [0, 0, 0, 0] ++ ws.getD (4 * i + 3) [0, 0, 0, 0]

/-- AES-256 encryption of one 16-byte block under a 32-byte key. -/
def encryptBlock (key block : List Nat) : List Nat :=
  let ws := expandKey key
  let st0 := addRoundKey block (roundKey ws 0)
  let stMid := (List.range 13).foldl (fun st r =>
    addRoundKey (mixColumns (shiftRows (subBytes st))) (roundKey ws (r + 1))) st0
  addRoundKey (shiftRows (subBytes stMid)) (roundKey ws 14)

end Aes

/-! ## GCM mode, as crypto/cipher NewGCM with a 12-byte nonce -/

namespace Gcm

/-- Carry-less multiplication in GF(2^128) with the GCM reduction
polynomial, operating on 128-bit naturals in GCM bit order. -/
def gfMulAux : Nat → Nat → Nat → Nat → Nat
  | 0, _, z, _ => z
  | i + 1, x, z, v =>
    let z2 := if x.testBit i then z ^^^ v else z
    let v2 := if v % 2 = 1 then v / 2 ^^^ 0xe1000000000000000000000000000000 else v / 2
    gfMulAux i x z2 v2

def gfMul (x y : Nat) : Nat := gfMulAux 128 x 0 y

/-- Split bytes into 128-bit blocks, zero-padding the last one; the fuel
argument only bounds the recursion and suffices whenever it is at least
the list length. -/
def toBlocksAux : Nat → List Nat → List Nat
  | 0, _ => []
  | _, [] => []
  | fuel + 1, b :: l =>
    fromBytesBE (((b :: l).take 16) ++ List.replicate (16 - (b :: l).length) 0)
      :: toBlocksAux fuel ((b :: l).drop 16)

def toBlocks (l : List Nat) : List Nat :=
  toBlocksAux l.length l

/-- GHASH over a block list. -/
def ghashBlocks (h : Nat) (blocks : List Nat) : Nat :=
  blocks.foldl (fun acc b => gfMul (acc ^^^ b) h) 0

/-- Counter block: the 12-byte nonce followed by a 32-bit counter. -/
def ctrBlock (nonce : List Nat) (i : Nat) : List Nat :=
  nonce ++ toBytesBE 4 (i % 2 ^ 32)

/-- CTR keystream of n bytes; the data counter starts at 2. -/
def keystream (encB : List Nat → List Nat) (nonce : List Nat) (n : Nat) : List Nat :=
  (((List.range ((n + 15) / 16)).map
    (fun i => encB (ctrBlock nonce (2 + i)))).flatten).take n

/-- Authentication tag over a ciphertext with empty additional data:
GHASH of the padded ciphertext and the length block, masked with the
encrypted initial counter block. -/
def tag (encB : List Nat → List Nat) (nonce ct : List Nat) : List Nat :=
  let h := fromBytesBE (encB (List.replicate 16 0))
  let s := ghashBlocks h (toBlocks ct ++ [fromBytesBE (toBytesBE 8 0 ++ toBytesBE 8 (8 * ct.length))])
  List.zipWith (· ^^^ ·) (encB (ctrBlock nonce 1)) (toBytesBE 16 s)

/-- gcm.Seal with destination nonce: nonce then ciphertext then tag. -/
def gcmSeal (encB : List Nat → List Nat) (nonce pt : List Nat) : List Nat :=
  let ct := List.zipWith (· ^^^ ·) pt (keystream encB nonce pt.length)
  nonce ++ ct ++ tag encB nonce ct

/-- gcm.Open on ciphertext-plus-tag: checks the tag, then decrypts. -/
def gcmOpen (encB : List Nat → List Nat) (nonce data : List Nat) : Option (List Nat) :=
  if data.length < 16 then none
  else
    let ct := data.take (data.length - 16)
    let t := data.drop (data.length - 16)
    if t = tag encB nonce ct then
      some (List.zipWith (· ^^^ ·) ct (keystream encB nonce ct.length))
    else none

end Gcm

/-! ## pkg/crypto/crypto.go -/

namespace Crypto

inductive CryptoError
  | keyNotSet
  | keyTooShort
  | invalidData
  | decryptionFail
deriving DecidableEq, Repr

/-- Key handling of initGCM in pkg/crypto/crypto.go: an empty key is an
error, a key shorter than 32 bytes is an error, and only the first
32 bytes are used for AES-256. -/
def initKey (key : String) : Except CryptoError (List Nat) :=
  if key = "" then .error .keyNotSet
  else if (strBytes key).length < 32 then .error .keyTooShort
  else .ok ((strBytes key).take 32)

/-- Encrypt from pkg/crypto/crypto.go: seal the plaintext bytes with
AES-256-GCM under the configured key and the given fresh 12-byte nonce
(drawn from crypto/rand in the source), prepend the nonce, and base64
encode the result for storage. -/
def Encrypt (key : String) (nonce plaintext : List Nat) : Except CryptoError String :=
  match initKey key with
  | .error e => .error e
  | .ok kb => .ok (Base64.encodeToString (Gcm.gcmSeal (Aes.encryptBlock kb) nonce plaintext))

/-- Decrypt from pkg/crypto/crypto.go: base64 decode, split off the
12-byte nonce, and open the AES-256-GCM ciphertext, surfacing distinct
errors for malformed input and for failed authentication. -/
def Decrypt (key : String) (ciphertext : String) : Except CryptoError (List Nat) :=
  match initKey key with
  | .error e => .error e
  | .ok kb =>
    match Base64.decodeString ciphertext with
    | none => .error .invalidData
    | some data =>
      if data.length < 12 then .error .invalidData
      else
        match Gcm.gcmOpen (Aes.encryptBlock kb) (data.take 12) (data.drop 12) with
        | none => .error .decryptionFail
        | some plaintext => .ok plaintext

end Crypto

/-! ## internal/webhooks/github.go -/

inductive SignatureError
  | missingSignature
  | invalidSignature
deriving DecidableEq, Repr

/-- subtle.ConstantTimeCompare viewed as a boolean: it reports 1 exactly
when the two byte slices have equal length and equal contents. -/
def constantTimeCompare (x y : List Nat) : Bool := x == y

/-- Recognise the mandatory header opening sha256= and return the
remaining characters, none when the opening is absent. -/
def sha256HeaderRest : List Char → Option (List Char)
  | 's' :: 'h' :: 'a' :: '2' :: '5' :: '6' :: '=' :: rest => some rest
  | _ => none

/-- ValidateSignature from internal/webhooks/github.go: require a header
of the form sha256=hex, hex decode it, and compare it in constant time
with the HMAC-SHA-256 of the payload under the given secret. -/
def ValidateSignature (payload : List Nat) (signatureHeader secret : String) :
    Except SignatureError Unit :=
  if signatureHeader = "" then .error .missingSignature
  else
    match sha256HeaderRest signatureHeader.toList with
    | none => .error .invalidSignature
    | some rest =>
      match hexDecodeList rest with
      | none => .error .invalidSignature
      | some signature =>
        if constantTimeCompare signature (hmacSha256 (strBytes secret) payload) then .ok ()
        else .error .invalidSignature

structure Commit where
  message : String
  authorName : String
  authorUsername : String
deriving DecidableEq, Repr

/-- The fields of the GitHub push payload the intake consumes. -/
structure PushEvent where
  ref : String
  before : String
  after : String
  deleted : Bool
  headCommit : Option Commit
  repoFullName : String
  pusherName : String
deriving DecidableEq, Repr

/-- GetBranch from internal/webhooks/github.go: strip a leading
refs-heads prefix from the ref. -/
def GetBranch (e : PushEvent) : String :=
  match e.ref.toList with
  | 'r' :: 'e' :: 'f' :: 's' :: '/' :: 'h' :: 'e' :: 'a' :: 'd' :: 's' :: '/' :: rest =>
    String.mk rest
  | _ => e.ref

/-- ShouldDeploy from internal/webhooks/github.go: no deploy for a deleted
ref, a missing head commit, or an all-zeros after SHA. -/
def ShouldDeploy (e : PushEvent) : Bool :=
  if e.deleted then false
  else if e.headCommit.isNone then false
  else if e.after = "0000000000000000000000000000000000000000" then false
  else true

/-- Project row from the database layer. -/
structure Project where
  id : String
  userId : String
  name : String
  slug : String
  repoFullName : String
  repoURL : String
  branch : String
  rootDirectory : String
  buildCommand : Option String
  startCommand : Option String
  runtime : Option String
  port : Nat
  webhookId : Option Int
  webhookSecret : Option String
deriving DecidableEq, Repr

/-- Observable outcome of the webhook endpoint: HTTP status, whether a
deployment row was created, and whether a build task was enqueued. -/
structure WebhookResponse where
  status : Nat
  createdDeployment : Bool
  enqueuedBuild : Bool
deriving DecidableEq, Repr

/-- HandleGitHubWebhook from src/unnamed/part_007, modelled from the point
where the raw body has been read and the payload parsed: inputs are the
event-type header, the raw body bytes, the signature header, the parsed
push event, and the result of the project lookup by repository full name.
The stored webhook secret is passed to ValidateSignature exactly as it
sits on the project row. -/
def HandleGitHubWebhook (eventType : String) (body : List Nat)
    (signature : String) (event : PushEvent) (project : Option Project) :
    WebhookResponse :=
  if eventType ≠ "push" then ⟨200, false, false⟩
  else
    match project with
    | none => ⟨200, false, false⟩
    | some p =>
      match p.webhookSecret with
      | none => ⟨401, false, false⟩
      | some secret =>
        if secret = "" then ⟨401, false, false⟩
        else
          match ValidateSignature body signature secret with
          | .error _ => ⟨401, false, false⟩
          | .ok _ =>
            if ¬ ShouldDeploy event then ⟨200, false, false⟩
            else if GetBranch event ≠ p.branch then ⟨200, false, false⟩
            else ⟨202, true, true⟩

/-- The webhook-secret storage step of HandleCreateProject in
internal/projects/handlers.go: the cleartext secret shared with GitHub is
sealed with crypto.Encrypt before SetProjectWebhook persists it. -/
def storeWebhookSecret (key : String) (nonce : List Nat) (cleartext : String) :
    Except Crypto.CryptoError String :=
  Crypto.Encrypt key nonce (strBytes cleartext)

/-! ## Slug allocation, internal/projects/handlers.go -/

/-- Collapse runs of hyphens to a single hyphen, as the second regexp in
generateSlug. -/
def collapseHyphens : List Char → List Char
  | [] => []
  | [c] => [c]
  | c1 :: c2 :: rest =>
    if c1 = '-' ∧ c2 = '-' then collapseHyphens (c2 :: rest)
    else c1 :: collapseHyphens (c2 :: rest)

/-- generateSlug from internal/projects/handlers.go: lowercase, replace
spaces and underscores with hyphens, remove every other character outside
lowercase letters, digits and hyphens, collapse hyphen runs, trim hyphens
from both ends, and truncate to 50 characters. -/
def generateSlug (name : String) : String :=
  let s1 := name.toList.map Char.toLower
  let s2 := s1.map (fun c => if c = ' ' then '-' else if c = '_' then '-' else c)
  let s3 := s2.filter (fun c => ('a' ≤ c && c ≤ 'z') || ('0' ≤ c && c ≤ '9') || c == '-')
  let s4 := collapseHyphens s3
  let s5 := ((s4.dropWhile (· == '-')).reverse.dropWhile (· == '-')).reverse
  String.mk (s5.take 50)

/-- randomSuffix from internal/projects/handlers.go; as the source comment
notes it is not crypto-random: it deterministically selects alphabet
position i modulo 36 for i below four, yielding a fixed string. -/
def randomSuffix : String :=
  let chars := "abcdefghijklmnopqrstuvwxyz0123456789".toList
  String.mk ((List.range 4).map (fun i => chars.getD (i % chars.length) 'a'))

/-- The slug-uniqueness loop of HandleCreateProject: while the candidate is
taken, append a hyphen and randomSuffix and retry.  The Go loop is
unbounded; fuel bounds the recursion in the model. -/
def ensureUniqueSlug (fuel : Nat) (taken : List String) (slug : String) : String :=
  match fuel with
  | 0 => slug
  | f + 1 =>
    if taken.contains slug then ensureUniqueSlug f taken (slug ++ "-" ++ randomSuffix)
    else slug

/-- Decision procedure for the slug pattern named by the specification,
anchored lowercase letter followed by up to 49 characters from lowercase
letters, digits and hyphens. -/
def matchesSlugPattern (s : String) : Bool :=
  match s.toList with
  | [] => false
  | c :: rest =>
    ('a' ≤ c && c ≤ 'z') && rest.length ≤ 49 &&
      rest.all (fun d => ('a' ≤ d && d ≤ 'z') || ('0' ≤ d && d ≤ '9') || d == '-')

/-- Modelled from the spec wording, for comparison with generateSlug only:
the claimed candidate derivation replaces every character outside lowercase
letters, digits and hyphens with a hyphen, then collapses, trims and
truncates as generateSlug does. -/
def specSlugCandidate (name : String) : String :=
  let s1 := name.toList.map Char.toLower
  let s2 := s1.map (fun c =>
    if ('a' ≤ c && c ≤ 'z') || ('0' ≤ c && c ≤ '9') || c == '-' then c else '-')
  let s3 := collapseHyphens s2
  let s4 := ((s3.dropWhile (· == '-')).reverse.dropWhile (· == '-')).reverse
  String.mk (s4.take 50)

/-! ## Environment variables, internal/database/env_vars.go -/

/-- EnvVar row; the database stores only the sealed value. -/
structure EnvVar where
  id : String
  projectId : String
  key : String
  valueEncrypted : String
deriving DecidableEq, Repr

/-- EnvVarDisplay, the only shape handed to API responses. -/
structure EnvVarDisplay where
  id : String
  key : String
  value : String
deriving DecidableEq, Repr

/-- The fixed mask used for every displayed value. -/
def maskedValue : String := "••••••••"

/-- ToDisplay from internal/database/env_vars.go. -/
def ToDisplay (e : EnvVar) : EnvVarDisplay :=
  ⟨e.id, e.key, maskedValue⟩

/-- ToDisplayList from internal/database/env_vars.go. -/
def ToDisplayList (l : List EnvVar) : List EnvVarDisplay :=
  l.map ToDisplay

/-- The response body of HandleListEnvVars in src/unnamed/part_003 for a
project whose variables are the given rows. -/
def listEnvVarsResponse (l : List EnvVar) : List EnvVarDisplay :=
  ToDisplayList l

/-- The response body of HandleCreateEnvVar in src/unnamed/part_003 for
the created or updated row. -/
def createEnvVarResponse (e : EnvVar) : EnvVarDisplay :=
  ToDisplay e

/-- Assignment into a Go string map: replace the value of an existing key
or append a new binding. -/
def mapInsert (k v : String) (m : List (String × String)) : List (String × String) :=
  if m.any (fun p => p.1 == k) then m.map (fun p => if p.1 == k then (k, v) else p)
  else m ++ [(k, v)]

/-- GetEnvVarsAsMap from internal/database/env_vars.go: decrypt every
stored value with the supplied decryption function and collect the
results into a map, failing on the first decryption error. -/
def GetEnvVarsAsMap (decryptFn : String → Except Crypto.CryptoError String)
    (vars : List EnvVar) : Except Crypto.CryptoError (List (String × String)) :=
  vars.foldlM (fun acc e => do
    let d ← decryptFn e.valueEncrypted
    pure (mapInsert e.key d acc)) []

/-! ## Deployments, internal/database/deployments.go -/

inductive DeploymentStatus
  | pending
  | building
  | deploying
  | live
  | failed
  | cancelled
  | superseded
deriving DecidableEq, Repr

/-- Deployment row. -/
structure DeploymentRow where
  id : String
  projectId : String
  commitSHA : String
  status : DeploymentStatus
  imageTag : Option String
  containerId : Option String
  url : Option String
  errorMessage : Option String
  startedAt : Option Nat
  completedAt : Option Nat
deriving DecidableEq, Repr

/-- The deployments table. -/
abbrev Db := List DeploymentRow

inductive DbError
  | notFound
deriving DecidableEq, Repr

/-- CreateDeployment from internal/database/deployments.go: insert a new
row with status pending. -/
def CreateDeployment (newId projectId commitSHA : String) (db : Db) : Db :=
  db ++ [{ id := newId, projectId := projectId, commitSHA := commitSHA,
           status := .pending, imageTag := none, containerId := none,
           url := none, errorMessage := none, startedAt := none,
           completedAt := none }]

/-- StartDeploymentBuild from internal/database/deployments.go: an UPDATE
whose WHERE clause matches on the row id only; it sets status building and
stamps the build start, and reports not-found exactly when no row matched. -/
def StartDeploymentBuild (now : Nat) (id : String) (db : Db) : Except DbError Db :=
  if db.countP (fun r => r.id == id) = 0 then .error .notFound
  else .ok (db.map (fun r =>
    if r.id == id then { r with status := .building, startedAt := some now } else r))

/-- SetDeploymentBuilt from internal/database/deployments.go: an UPDATE on
the row id only; it sets status deploying and stores the image tag. -/
def SetDeploymentBuilt (id imageTag : String) (db : Db) : Except DbError Db :=
  if db.countP (fun r => r.id == id) = 0 then .error .notFound
  else .ok (db.map (fun r =>
    if r.id == id then { r with status := .deploying, imageTag := some imageTag } else r))

/-- SetDeploymentLive from internal/database/deployments.go: an UPDATE on
the row id only; it sets status live, stores the container id and public
URL, and stamps completion. -/
def SetDeploymentLive (now : Nat) (id containerId url : String) (db : Db) :
    Except DbError Db :=
  if db.countP (fun r => r.id == id) = 0 then .error .notFound
  else .ok (db.map (fun r =>
    if r.id == id then
      { r with status := .live, containerId := some containerId,
               url := some url, completedAt := some now }
    else r))

/-- SupersededOldDeployments from internal/database/deployments.go: mark
every live row of the project other than the excluded id superseded; the
affected-row count is not checked. -/
def SupersededOldDeployments (now : Nat) (projectId exceptId : String) (db : Db) : Db :=
  db.map (fun r =>
    if r.projectId == projectId && r.status == .live && r.id != exceptId then
      { r with status := .superseded, completedAt := some now }
    else r)

/-- SetDeploymentFailed from internal/database/deployments.go: an UPDATE
on the row id only; it sets status failed, stores the reason, and stamps
completion. -/
def SetDeploymentFailed (now : Nat) (id errorMsg : String) (db : Db) :
    Except DbError Db :=
  if db.countP (fun r => r.id == id) = 0 then .error .notFound
  else .ok (db.map (fun r =>
    if r.id == id then
      { r with status := .failed, errorMessage := some errorMsg,
               completedAt := some now }
    else r))

/-- CancelDeployment from internal/database/deployments.go: the only
conditional transition; the WHERE clause also requires the current status
to be pending, building or deploying. -/
def CancelDeployment (now : Nat) (id : String) (db : Db) : Except DbError Db :=
  let hit := fun (r : DeploymentRow) =>
    r.id == id &&
      (r.status == .pending || r.status == .building || r.status == .deploying)
  if db.countP hit = 0 then .error .notFound
  else .ok (db.map (fun r =>
    if hit r then { r with status := .cancelled, completedAt := some now } else r))

/-- UpdateDeploymentStatus from internal/database/deployments.go: an
UPDATE on the row id only; it sets the status and the error message. -/
def UpdateDeploymentStatus (id : String) (status : DeploymentStatus)
    (errorMsg : Option String) (db : Db) : Except DbError Db :=
  if db.countP (fun r => r.id == id) = 0 then .error .notFound
  else .ok (db.map (fun r =>
    if r.id == id then { r with status := status, errorMessage := errorMsg } else r))

/-! ## Queue payloads and workers, src/unnamed/part_008 and part_004 -/

structure BuildPayload where
  deploymentId : String
  projectId : String
  commitSHA : String
  branch : String
  repoFullName : String
  repoCloneURL : String
  rootDir : String
  buildCommand : String
  startCommand : String
  runtime : String
  port : Nat
deriving DecidableEq, Repr

structure DeployPayload where
  deploymentId : String
  projectId : String
  projectSlug : String
  imageTag : String
  port : Nat
deriving DecidableEq, Repr

/-- Outcomes of the external steps the build worker performs through the
filesystem, git and docker; the worker's control flow branches on them. -/
structure BuildExternals where
  mkdirTempOk : Bool
  cloneOk : Bool
  dockerfileExists : Bool
  writeFileOk : Bool
  buildImageOk : Bool
  pushImageOk : Bool
deriving DecidableEq, Repr

/-- Observable outcome of one build-task execution: the database after the
run, the deploy tasks enqueued, whether the docker build and push both
succeeded, and the error returned to the broker if any. -/
structure BuildResult where
  db : Db
  enqueuedDeploys : List DeployPayload
  imageBuilt : Bool
  err : Option String
deriving DecidableEq, Repr

/-- failBuild and failDeploy from src/unnamed/part_004: record the failure
on the row; the source ignores a failure of this update itself. -/
def failDeploymentDb (now : Nat) (id msg : String) (db : Db) : Db :=
  match SetDeploymentFailed now id msg db with
  | .ok db2 => db2
  | .error _ => db

/-- HandleBuildTask from src/unnamed/part_004, with the external steps
summarised by their outcomes: mark the row building, clone, synthesize a
Dockerfile when none exists, build and push the image, mark the row
deploying with the image tag, and enqueue a deploy task with the project
slug.  A failure of the initial status update is returned to the broker
as an error. -/
def HandleBuildTask (ext : BuildExternals) (registryURL : String)
    (projects : List Project) (now : Nat) (p : BuildPayload) (db : Db) :
    BuildResult :=
  match StartDeploymentBuild now p.deploymentId db with
  | .error _ => ⟨db, [], false, some "failed to start deployment build"⟩
  | .ok db1 =>
    if ¬ ext.mkdirTempOk then
      ⟨failDeploymentDb now p.deploymentId "failed to create build directory" db1,
        [], false, some "failed to create build directory"⟩
    else if ¬ ext.cloneOk then
      ⟨failDeploymentDb now p.deploymentId "failed to clone repository" db1,
        [], false, some "failed to clone repository"⟩
    else if ¬ ext.dockerfileExists ∧ ¬ ext.writeFileOk then
      ⟨failDeploymentDb now p.deploymentId "failed to write Dockerfile" db1,
        [], false, some "failed to write Dockerfile"⟩
    else
      let imageTag := registryURL ++ "/" ++ p.projectId ++ ":" ++ p.commitSHA.take 8
      if ¬ ext.buildImageOk then
        ⟨failDeploymentDb now p.deploymentId "failed to build container image" db1,
          [], false, some "failed to build container image"⟩
      else if ¬ ext.pushImageOk then
        ⟨failDeploymentDb now p.deploymentId "failed to push container image" db1,
          [], false, some "failed to push container image"⟩
      else
        match SetDeploymentBuilt p.deploymentId imageTag db1 with
        | .error _ => ⟨db1, [], true, some "failed to set deployment built"⟩
        | .ok db2 =>
          match projects.find? (fun pr => pr.id == p.projectId) with
          | none => ⟨db2, [], true, some "failed to get project"⟩
          | some project =>
            ⟨db2,
              [⟨p.deploymentId, p.projectId, project.slug, imageTag, p.port⟩],
              true, none⟩

/-- Outcomes of the deploy worker's container interaction. -/
structure DeployExternals where
  containerDeployOk : Bool
  containerId : String
deriving DecidableEq, Repr

/-- Observable outcome of one deploy-task execution: the database after
the run, the environment mapping handed to the container, and the error
returned to the broker if any. -/
structure DeployResult where
  db : Db
  env : List (String × String)
  err : Option String
deriving DecidableEq, Repr

/-- HandleDeployTask from src/unnamed/part_004: mark the row deploying,
decrypt the environment variables, set PORT, deploy the container, mark
every other live deployment of the project superseded, and only then mark
this row live with the container id and public URL. -/
def HandleDeployTask (ext : DeployExternals) (baseDomain : String)
    (envVars : Except Crypto.CryptoError (List (String × String)))
    (now : Nat) (p : DeployPayload) (db : Db) : DeployResult :=
  match UpdateDeploymentStatus p.deploymentId .deploying none db with
  | .error _ => ⟨db, [], some "failed to update deployment status"⟩
  | .ok db1 =>
    match envVars with
    | .error _ =>
      ⟨failDeploymentDb now p.deploymentId "failed to fetch environment variables" db1,
        [], some "failed to fetch environment variables"⟩
    | .ok env0 =>
      let env := mapInsert "PORT" (toString p.port) env0
      if ¬ ext.containerDeployOk then
        ⟨failDeploymentDb now p.deploymentId "failed to deploy container" db1,
          env, some "failed to deploy container"⟩
      else
        let db2 := SupersededOldDeployments now p.projectId p.deploymentId db1
        let url := "https://" ++ p.projectSlug ++ "." ++ baseDomain
        match SetDeploymentLive now p.deploymentId ext.containerId url db2 with
        | .error _ => ⟨db2, env, some "failed to set deployment deployed"⟩
        | .ok db3 => ⟨db3, env, none⟩

/-- The environment mapping HandleDeployTask passes to the container:
the decrypted variables with PORT assigned to the listen port. -/
def containerEnv (env0 : List (String × String)) (port : Nat) :
    List (String × String) :=
  mapInsert "PORT" (toString port) env0

/-- One database mutation of the deploy worker, for interleaving
analysis of two concurrent workers. -/
inductive DbMutation
  | updateStatus (id : String) (status : DeploymentStatus) (errorMsg : Option String)
  | supersedeOld (projectId exceptId : String)
  | setLive (id containerId url : String)
deriving DecidableEq, Repr

/-- Apply one mutation; an UPDATE that matches no row leaves the table
unchanged, exactly as the SQL statement does. -/
def applyMutation (now : Nat) (db : Db) : DbMutation → Db
  | .updateStatus id st msg =>
    match UpdateDeploymentStatus id st msg db with
    | .ok db2 => db2
    | .error _ => db
  | .supersedeOld pid ex => SupersededOldDeployments now pid ex db
  | .setLive id cid url =>
    match SetDeploymentLive now id cid url db with
    | .ok db2 => db2
    | .error _ => db

/-- The database mutations HandleDeployTask performs on its success path,
in program order: the deploying update, then the supersession of other
live rows, then the promotion to live. -/
def deployMutations (p : DeployPayload) (containerId baseDomain : String) :
    List DbMutation :=
  [.updateStatus p.deploymentId .deploying none,
   .supersedeOld p.projectId p.deploymentId,
   .setLive p.deploymentId containerId
     ("https://" ++ p.projectSlug ++ "." ++ baseDomain)]

/-- Execute a mutation sequence left to right. -/
def runMutations (now : Nat) (db : Db) (ms : List DbMutation) : Db :=
  ms.foldl (applyMutation now) db

/-- Number of live rows a project has. -/
def liveCount (projectId : String) (db : Db) : Nat :=
  db.countP (fun r => r.projectId == projectId && r.status == .live)

/-! ## Project update, src/unnamed/part_008 and internal/projects/handlers.go -/

/-- UpdateProjectInput from the database layer. -/
structure UpdateProjectInput where
  name : Option String
  branch : Option String
  rootDirectory : Option String
  buildCommand : Option String
  startCommand : Option String
  runtime : Option String
  port : Option Nat
deriving DecidableEq, Repr

/-- UpdateProject from src/unnamed/part_008: COALESCE each supplied field
with the current column value; every column not in the SET list is
untouched. -/
def UpdateProject (p : Project) (input : UpdateProjectInput) : Project :=
  { p with
    name := input.name.getD p.name,
    branch := input.branch.getD p.branch,
    rootDirectory := input.rootDirectory.getD p.rootDirectory,
    buildCommand := input.buildCommand.or p.buildCommand,
    startCommand := input.startCommand.or p.startCommand,
    runtime := input.runtime.or p.runtime,
    port := input.port.getD p.port }

/-- UpdateProjectRequest from internal/projects/handlers.go; the PATCH
body has no runtime field. -/
structure UpdateProjectRequest where
  name : Option String
  branch : Option String
  rootDirectory : Option String
  buildCommand : Option String
  startCommand : Option String
  port : Option Nat
deriving DecidableEq, Repr

/-- The update HandleUpdateProject performs after its ownership checks:
it forwards the request fields and never supplies runtime. -/
def HandleUpdateProject (p : Project) (req : UpdateProjectRequest) : Project :=
  UpdateProject p
    ⟨req.name, req.branch, req.rootDirectory, req.buildCommand,
      req.startCommand, none, req.port⟩

/-- Candidate the slug-uniqueness loop tries after k collisions. -/
def slugCandidateAt (slug : String) : Nat → String
  | 0 => slug
  | k + 1 => slugCandidateAt (slug ++ "-" ++ randomSuffix) k

/-! ## Supporting lemmas -/

theorem countP_id_ne_zero {db : Db} {d : DeploymentRow} (hd : d ∈ db) :
    db.countP (fun r => r.id == d.id) ≠ 0 := by
  have : 0 < db.countP (fun r => r.id == d.id) :=
    List.countP_pos_iff.mpr ⟨d, hd, by simp⟩
  omega

theorem countP_eq_ne_zero {db : Db} {d : DeploymentRow} {id : String}
    (hd : d ∈ db) (hid : d.id = id) :
    db.countP (fun r => r.id == id) ≠ 0 := by
  have : 0 < db.countP (fun r => r.id == id) :=
    List.countP_pos_iff.mpr ⟨d, hd, by simp [hid]⟩
  omega

theorem lookup_map_overwrite (k v : String) :
    ∀ m : List (String × String), m.any (fun p => p.1 == k) = true →
      (m.map (fun p => if p.1 == k then (k, v) else p)).lookup k = some v := by
  intro m
  induction m with
  | nil => simp
  | cons p t ih =>
    intro h
    rw [List.map_cons]
    by_cases hp : (p.1 == k) = true
    · rw [if_pos hp]
      simp [List.lookup]
    · have hne : p.1 ≠ k := by simpa using hp
      simp only [List.any_cons, Bool.or_eq_true] at h
      rw [if_neg hp]
      simp only [List.lookup, beq_eq_false_iff_ne.mpr (Ne.symm hne)]
      exact ih (h.resolve_left hp)

theorem lookup_append_new (k v : String) :
    ∀ m : List (String × String), m.any (fun p => p.1 == k) = false →
      (m ++ [(k, v)]).lookup k = some v := by
  intro m
  induction m with
  | nil => simp [List.lookup]
  | cons p t ih =>
    intro h
    simp only [List.any_cons, Bool.or_eq_false_iff] at h
    have hne : p.1 ≠ k := by simpa using h.1
    simp only [List.cons_append, List.lookup,
      beq_eq_false_iff_ne.mpr (Ne.symm hne)]
    exact ih h.2

theorem lookup_mapInsert (k v : String) (m : List (String × String)) :
    (mapInsert k v m).lookup k = some v := by
  by_cases hany : m.any (fun p => p.1 == k) = true
  · rw [mapInsert, if_pos hany]
    exact lookup_map_overwrite k v m hany
  · rw [mapInsert, if_neg hany]
    refine lookup_append_new k v m ?_
    cases hb : m.any (fun p => p.1 == k)
    · rfl
    · exact absurd hb hany

theorem mem_mapInsert_of_ne {k v kq vq : String} (m : List (String × String))
    (hne : kq ≠ k) : ((kq, vq) ∈ mapInsert k v m) ↔ (kq, vq) ∈ m := by
  by_cases hany : m.any (fun p => p.1 == k) = true
  · rw [mapInsert, if_pos hany]
    constructor
    · intro hm
      obtain ⟨q, hq, hfq⟩ := List.mem_map.mp hm
      by_cases hq1 : (q.1 == k) = true
      · rw [if_pos hq1] at hfq
        exact absurd (congrArg Prod.fst hfq).symm hne
      · rw [if_neg hq1] at hfq
        exact hfq ▸ hq
    · intro hm
      refine List.mem_map.mpr ⟨(kq, vq), hm, ?_⟩
      rw [if_neg (by simpa using hne)]
  · rw [mapInsert, if_neg hany]
    constructor
    · intro hm
      rcases List.mem_append.mp hm with h | h
      · exact h
      · simp only [List.mem_singleton, Prod.mk.injEq] at h
        exact absurd h.1 hne
    · intro hm
      exact List.mem_append.mpr (Or.inl hm)

/-! ## Base64 round trip -/

theorem dec6_enc6 : ∀ v < 64, Base64.dec6 (Base64.enc6 v) = some v := by
  decide

theorem enc6_ne_pad : ∀ v < 64, Base64.enc6 v ≠ '=' := by
  decide

theorem encodeBytes_ne_nil : ∀ (bs : List Nat), bs ≠ [] → Base64.encodeBytes bs ≠ [] := by
  intro bs h
  match bs with
  | [b0] => simp [Base64.encodeBytes]
  | [b0, b1] => simp [Base64.encodeBytes]
  | b0 :: b1 :: b2 :: rest => simp [Base64.encodeBytes]

theorem b64_roundtrip_aux : ∀ (n : Nat) (bs : List Nat), bs.length ≤ n →
    (∀ b ∈ bs, b < 256) →
    Base64.decodeChars (Base64.encodeBytes bs) = some bs := by
  intro n
  induction n with
  | zero =>
    intro bs hlen _
    have : bs = [] := List.eq_nil_of_length_eq_zero (by omega)
    subst this
    rfl
  | succ m ih =>
    intro bs hlen hb
    match bs with
    | [] => rfl
    | [b0] =>
      have h0 : b0 < 256 := hb b0 (by simp)
      have e0 : b0 / 4 < 64 := by omega
      have e1 : b0 % 4 * 16 < 64 := by omega
      rw [Base64.encodeBytes, Base64.decodeChars, Base64.decodeLast]
      rw [dec6_enc6 _ e0, dec6_enc6 _ e1]
      simp only [Option.bind_eq_bind, Option.some_bind, if_pos rfl, if_true,
        Option.pure_def, Option.some.injEq, List.cons.injEq, and_true]
      omega
    | [b0, b1] =>
      have h0 : b0 < 256 := hb b0 (by simp)
      have h1 : b1 < 256 := hb b1 (by simp)
      have e0 : b0 / 4 < 64 := by omega
      have e1 : b0 % 4 * 16 + b1 / 16 < 64 := by omega
      have e2 : b1 % 16 * 4 < 64 := by omega
      rw [Base64.encodeBytes, Base64.decodeChars, Base64.decodeLast]
      rw [dec6_enc6 _ e0, dec6_enc6 _ e1]
      simp only [Option.bind_eq_bind, Option.some_bind,
        if_neg (enc6_ne_pad _ e2), dec6_enc6 _ e2, if_pos rfl, if_true,
        Option.pure_def, Option.some.injEq, List.cons.injEq, and_true]
      omega
    | b0 :: b1 :: b2 :: rest =>
      have h0 : b0 < 256 := hb b0 (by simp)
      have h1 : b1 < 256 := hb b1 (by simp)
      have h2 : b2 < 256 := hb b2 (by simp)
      have e0 : b0 / 4 < 64 := by omega
      have e1 : b0 % 4 * 16 + b1 / 16 < 64 := by omega
      have e2 : b1 % 16 * 4 + b2 / 64 < 64 := by omega
      have e3 : b2 % 64 < 64 := by omega
      have r0 : b0 / 4 * 4 + (b0 % 4 * 16 + b1 / 16) / 16 = b0 := by omega
      have r1 : (b0 % 4 * 16 + b1 / 16) % 16 * 16 + (b1 % 16 * 4 + b2 / 64) / 4 = b1 := by
        omega
      have r2 : (b1 % 16 * 4 + b2 / 64) % 4 * 64 + b2 % 64 = b2 := by omega
      rw [Base64.encodeBytes]
      match hrest : rest with
      | [] =>
        simp only [Base64.encodeBytes, Base64.decodeChars, Base64.decodeLast]
        rw [dec6_enc6 _ e0, dec6_enc6 _ e1]
        simp only [Option.bind_eq_bind, Option.some_bind,
          if_neg (enc6_ne_pad _ e2), dec6_enc6 _ e2,
          if_neg (enc6_ne_pad _ e3), dec6_enc6 _ e3, if_true,
          Option.pure_def, Option.some.injEq, List.cons.injEq, and_true]
        omega
      | x :: xs =>
        have hne := encodeBytes_ne_nil (x :: xs) (by simp)
        have ihr : Base64.decodeChars (Base64.encodeBytes (x :: xs)) = some (x :: xs) := by
          refine ih (x :: xs) ?_ ?_
          · have := hlen
            simp only [List.length_cons] at this ⊢
            omega
          · intro b hbm
            exact hb b (by simp [hbm])
        match henc : Base64.encodeBytes (x :: xs) with
        | [] => exact absurd henc hne
        | y :: ys =>
          rw [henc] at ihr
          simp only [Base64.decodeChars]
          rw [dec6_enc6 _ e0, dec6_enc6 _ e1, dec6_enc6 _ e2, dec6_enc6 _ e3]
          simp only [Option.bind_eq_bind, Option.some_bind, ihr, if_true,
            Option.pure_def, Option.some.injEq, List.cons.injEq, and_true]
          omega

theorem b64_roundtrip (bs : List Nat) (hb : ∀ b ∈ bs, b < 256) :
    Base64.decodeString (Base64.encodeToString bs) = some bs := by
  have : (Base64.encodeToString bs).toList = Base64.encodeBytes bs := rfl
  rw [Base64.decodeString, this]
  exact b64_roundtrip_aux bs.length bs (le_refl _) hb

/-! ## Shape of the AES block function and of GCM sealing -/

theorem xor8 {a b : Nat} (ha : a < 256) (hb : b < 256) : a ^^^ b < 256 := by
  have h : (256 : Nat) = 2 ^ 8 := by norm_num
  rw [h] at ha hb ⊢
  exact Nat.xor_lt_two_pow ha hb

theorem sbox_lt (b : Nat) : Aes.sbox b < 256 := by
  have hall : ∀ x ∈ Aes.sboxTable, x < 256 := by decide
  have hlen : Aes.sboxTable.length = 256 := by decide
  rw [Aes.sbox]
  have hb : b % 256 < Aes.sboxTable.length := by omega
  rw [List.getD_eq_getElem _ _ hb]
  exact hall _ (List.getElem_mem hb)

theorem xtime_lt (b : Nat) : Aes.xtime b < 256 := Nat.mod_lt _ (by omega)

theorem getD_lt {s : List Nat} (hs : ∀ x ∈ s, x < 256) (i : Nat) : s.getD i 0 < 256 := by
  rcases Nat.lt_or_ge i s.length with h | h
  · rw [List.getD_eq_getElem _ _ h]
    exact hs _ (List.getElem_mem h)
  · rw [List.getD_eq_default _ _ h]
    omega

theorem zipxor_lt : ∀ {a b : List Nat}, (∀ x ∈ a, x < 256) → (∀ x ∈ b, x < 256) →
    ∀ x ∈ List.zipWith (· ^^^ ·) a b, x < 256 := by
  intro a
  induction a with
  | nil =>
    intro b _ _ x hx
    simp at hx
  | cons p t ih =>
    intro b ha hb x hx
    cases b with
    | nil => simp at hx
    | cons q u =>
      simp only [List.zipWith_cons_cons, List.mem_cons] at hx
      rcases hx with rfl | hx
      · exact xor8 (ha p (by simp)) (hb q (by simp))
      · exact ih (fun y hy => ha y (by simp [hy])) (fun y hy => hb y (by simp [hy])) x hx

theorem mixCol_lt {a0 a1 a2 a3 : Nat} (h0 : a0 < 256) (h1 : a1 < 256)
    (h2 : a2 < 256) (h3 : a3 < 256) : ∀ x ∈ Aes.mixCol a0 a1 a2 a3, x < 256 := by
  intro x hx
  simp only [Aes.mixCol, List.mem_cons, List.mem_singleton, List.not_mem_nil,
    or_false] at hx
  rcases hx with rfl | rfl | rfl | rfl
  · exact xor8 (xor8 (xor8 (xtime_lt a0) (xor8 (xtime_lt a1) h1)) h2) h3
  · exact xor8 (xor8 (xor8 h0 (xtime_lt a1)) (xor8 (xtime_lt a2) h2)) h3
  · exact xor8 (xor8 (xor8 h0 h1) (xtime_lt a2)) (xor8 (xtime_lt a3) h3)
  · exact xor8 (xor8 (xor8 (xor8 (xtime_lt a0) h0) h1) h2) (xtime_lt a3)

theorem getD_word_shape {ws : List (List Nat)}
    (hws : ∀ w ∈ ws, w.length = 4 ∧ ∀ x ∈ w, x < 256) (k : Nat) :
    (ws.getD k [0, 0, 0, 0]).length = 4 ∧ ∀ x ∈ ws.getD k [0, 0, 0, 0], x < 256 := by
  rcases Nat.lt_or_ge k ws.length with h | h
  · rw [List.getD_eq_getElem _ _ h]
    exact hws _ (List.getElem_mem h)
  · rw [List.getD_eq_default _ _ h]
    exact ⟨rfl, by decide⟩

theorem expandKey_shape {key : List Nat} (hk : key.length = 32)
    (hkb : ∀ x ∈ key, x < 256) :
    ∀ w ∈ Aes.expandKey key, w.length = 4 ∧ ∀ x ∈ w, x < 256 := by
  rw [Aes.expandKey]
  refine List.foldlRecOn
    (motive := fun ws : List (List Nat) => ∀ w ∈ ws, w.length = 4 ∧ ∀ x ∈ w, x < 256) _ _ _ ?_ ?_
  · intro w hw
    simp only [List.mem_map, List.mem_range] at hw
    obtain ⟨i, hi, rfl⟩ := hw
    constructor
    · rw [List.length_take, List.length_drop, hk]
      omega
    · intro x hx
      exact hkb x (List.mem_of_mem_drop (List.mem_of_mem_take hx))
  · intro ws hws j _ w hw
    rcases List.mem_append.mp hw with h | h
    · exact hws w h
    · simp only [List.mem_singleton] at h
      subst h
      have hprev := getD_word_shape hws (j + 8 - 1)
      have hbase := getD_word_shape hws (j + 8 - 8)
      have hsub : ∀ v : List Nat, (∀ x ∈ v, x < 256) →
          (Aes.subWord v).length = v.length ∧ ∀ x ∈ Aes.subWord v, x < 256 := by
        intro v hv
        refine ⟨List.length_map _ _, ?_⟩
        intro x hx
        obtain ⟨y, _, rfl⟩ := List.mem_map.mp hx
        exact sbox_lt y
      have hrot : (Aes.rotWord (ws.getD (j + 8 - 1) [0, 0, 0, 0])).length = 4 ∧
          ∀ x ∈ Aes.rotWord (ws.getD (j + 8 - 1) [0, 0, 0, 0]), x < 256 := by
        constructor
        · rw [Aes.rotWord, List.length_append, List.length_drop, List.length_take,
            hprev.1]
          omega
        · intro x hx
          rw [Aes.rotWord] at hx
          rcases List.mem_append.mp hx with h2 | h2
          · exact hprev.2 x (List.mem_of_mem_drop h2)
          · exact hprev.2 x (List.mem_of_mem_take h2)
      have hrcon : ∀ x ∈ [Aes.rcon.getD (((j + 8) / 8 - 1)) 0, 0, 0, 0], x < 256 := by
        intro x hx
        simp only [List.mem_cons, List.mem_singleton, List.not_mem_nil, or_false] at hx
        rcases hx with rfl | rfl | rfl | rfl
        · have hall : ∀ y ∈ Aes.rcon, y < 256 := by decide
          rcases Nat.lt_or_ge ((j + 8) / 8 - 1) Aes.rcon.length with h2 | h2
          · rw [List.getD_eq_getElem _ _ h2]
            exact hall _ (List.getElem_mem h2)
          · rw [List.getD_eq_default _ _ h2]
            omega
        · omega
        · omega
        · omega
      have htemp2 : (if (j + 8) % 8 = 0 then
            List.zipWith (· ^^^ ·)
              (Aes.subWord (Aes.rotWord (ws.getD (j + 8 - 1) [0, 0, 0, 0])))
              [Aes.rcon.getD ((j + 8) / 8 - 1) 0, 0, 0, 0]
          else if (j + 8) % 8 = 4 then
            Aes.subWord (ws.getD (j + 8 - 1) [0, 0, 0, 0])
          else ws.getD (j + 8 - 1) [0, 0, 0, 0]).length = 4 ∧
          ∀ x ∈ (if (j + 8) % 8 = 0 then
            List.zipWith (· ^^^ ·)
              (Aes.subWord (Aes.rotWord (ws.getD (j + 8 - 1) [0, 0, 0, 0])))
              [Aes.rcon.getD ((j + 8) / 8 - 1) 0, 0, 0, 0]
          else if (j + 8) % 8 = 4 then
            Aes.subWord (ws.getD (j + 8 - 1) [0, 0, 0, 0])
          else ws.getD (j + 8 - 1) [0, 0, 0, 0]), x < 256 := by
        split
        · constructor
          · rw [List.length_zipWith, (hsub _ hrot.2).1, hrot.1]
            simp
          · exact zipxor_lt ((hsub _ hrot.2).2) hrcon
        · split
          · exact ⟨by rw [(hsub _ hprev.2).1, hprev.1], (hsub _ hprev.2).2⟩
          · exact hprev
      constructor
      · rw [List.length_zipWith, hbase.1, htemp2.1]
        simp
      · exact zipxor_lt hbase.2 htemp2.2

theorem roundKey_shape {ws : List (List Nat)}
    (hws : ∀ w ∈ ws, w.length = 4 ∧ ∀ x ∈ w, x < 256) (i : Nat) :
    (Aes.roundKey ws i).length = 16 ∧ ∀ x ∈ Aes.roundKey ws i, x < 256 := by
  have h0 := getD_word_shape hws (4 * i)
  have h1 := getD_word_shape hws (4 * i + 1)
  have h2 := getD_word_shape hws (4 * i + 2)
  have h3 := getD_word_shape hws (4 * i + 3)
  constructor
  · rw [Aes.roundKey]
    simp only [List.length_append, h0.1, h1.1, h2.1, h3.1]
  · intro x hx
    rw [Aes.roundKey] at hx
    rcases List.mem_append.mp hx with h | h
    · rcases List.mem_append.mp h with h | h
      · rcases List.mem_append.mp h with h | h
        · exact h0.2 x h
        · exact h1.2 x h
      · exact h2.2 x h
    · exact h3.2 x h

theorem subBytes_shape {s : List Nat} :
    (Aes.subBytes s).length = s.length ∧ ∀ x ∈ Aes.subBytes s, x < 256 := by
  refine ⟨List.length_map _ _, ?_⟩
  intro x hx
  obtain ⟨y, _, rfl⟩ := List.mem_map.mp hx
  exact sbox_lt y

theorem shiftRows_shape {s : List Nat} (hs : ∀ x ∈ s, x < 256) :
    (Aes.shiftRows s).length = 16 ∧ ∀ x ∈ Aes.shiftRows s, x < 256 := by
  constructor
  · rw [Aes.shiftRows, List.length_map, List.length_range]
  · intro x hx
    rw [Aes.shiftRows] at hx
    obtain ⟨i, _, rfl⟩ := List.mem_map.mp hx
    exact getD_lt hs _

theorem mixColumns_shape {s : List Nat} (hs : ∀ x ∈ s, x < 256) :
    (Aes.mixColumns s).length = 16 ∧ ∀ x ∈ Aes.mixColumns s, x < 256 := by
  constructor
  · rw [Aes.mixColumns, show List.range 4 = [0, 1, 2, 3] from rfl]
    simp [Aes.mixCol]
  · intro x hx
    rw [Aes.mixColumns] at hx
    rw [List.mem_flatMap] at hx
    obtain ⟨c, _, hxc⟩ := hx
    exact mixCol_lt (getD_lt hs _) (getD_lt hs _) (getD_lt hs _) (getD_lt hs _) x hxc

theorem addRoundKey_shape {s rk : List Nat} (hsl : s.length = 16)
    (hsb : ∀ x ∈ s, x < 256) (hrl : rk.length = 16) (hrb : ∀ x ∈ rk, x < 256) :
    (Aes.addRoundKey s rk).length = 16 ∧ ∀ x ∈ Aes.addRoundKey s rk, x < 256 := by
  constructor
  · rw [Aes.addRoundKey, List.length_zipWith, hsl, hrl]
    simp
  · exact zipxor_lt hsb hrb

theorem rounds_shape {ws : List (List Nat)}
    (hws : ∀ w ∈ ws, w.length = 4 ∧ ∀ x ∈ w, x < 256) (st0 : List Nat)
    (hl : st0.length = 16) (hb : ∀ x ∈ st0, x < 256) :
    ((List.range 13).foldl (fun st r =>
      Aes.addRoundKey (Aes.mixColumns (Aes.shiftRows (Aes.subBytes st)))
        (Aes.roundKey ws (r + 1))) st0).length = 16 ∧
    ∀ x ∈ (List.range 13).foldl (fun st r =>
      Aes.addRoundKey (Aes.mixColumns (Aes.shiftRows (Aes.subBytes st)))
        (Aes.roundKey ws (r + 1))) st0, x < 256 := by
  refine List.foldlRecOn
    (motive := fun st : List Nat => st.length = 16 ∧ ∀ x ∈ st, x < 256) _ _ _ ⟨hl, hb⟩ ?_
  intro st hst r _
  have h1 := subBytes_shape (s := st)
  have h2 := shiftRows_shape h1.2
  have h3 := mixColumns_shape h2.2
  exact addRoundKey_shape h3.1 h3.2 (roundKey_shape hws (r + 1)).1
    (roundKey_shape hws (r + 1)).2

theorem encryptBlock_shape {key block : List Nat} (hk : key.length = 32)
    (hkb : ∀ x ∈ key, x < 256) (hbl : block.length = 16) (hbb : ∀ x ∈ block, x < 256) :
    (Aes.encryptBlock key block).length = 16 ∧
      ∀ x ∈ Aes.encryptBlock key block, x < 256 := by
  have hws := expandKey_shape hk hkb
  have hst0 := addRoundKey_shape hbl hbb (roundKey_shape hws 0).1 (roundKey_shape hws 0).2
  have hmid := rounds_shape hws _ hst0.1 hst0.2
  have h1 := subBytes_shape (s := (List.range 13).foldl (fun st r =>
    Aes.addRoundKey (Aes.mixColumns (Aes.shiftRows (Aes.subBytes st)))
      (Aes.roundKey (Aes.expandKey key) (r + 1)))
    (Aes.addRoundKey block (Aes.roundKey (Aes.expandKey key) 0)))
  have h2 := shiftRows_shape h1.2
  have hfin := addRoundKey_shape h2.1 h2.2 (roundKey_shape hws 14).1
    (roundKey_shape hws 14).2
  simpa only [Aes.encryptBlock] using hfin

theorem toBytesBE_length (w n : Nat) : (toBytesBE w n).length = w := by
  simp [toBytesBE]

theorem toBytesBE_lt (w n : Nat) : ∀ x ∈ toBytesBE w n, x < 256 := by
  intro x hx
  simp only [toBytesBE, List.mem_map] at hx
  obtain ⟨i, _, rfl⟩ := hx
  exact Nat.mod_lt _ (by omega)

theorem ctrBlock_shape {nonce : List Nat} (hn : nonce.length = 12)
    (hnb : ∀ x ∈ nonce, x < 256) (i : Nat) :
    (Gcm.ctrBlock nonce i).length = 16 ∧ ∀ x ∈ Gcm.ctrBlock nonce i, x < 256 := by
  constructor
  · rw [Gcm.ctrBlock, List.length_append, hn, toBytesBE_length]
  · intro x hx
    rcases List.mem_append.mp hx with h | h
    · exact hnb x h
    · exact toBytesBE_lt _ _ x h

theorem keystream_length {encB : List Nat → List Nat} {nonce : List Nat}
    (hn : nonce.length = 12) (hnb : ∀ x ∈ nonce, x < 256)
    (hE : ∀ b, b.length = 16 → (∀ x ∈ b, x < 256) → (encB b).length = 16) (n : Nat) :
    (Gcm.keystream encB nonce n).length = n := by
  rw [Gcm.keystream, List.length_take, List.length_flatten, List.map_map]
  have hmap : ((List.range ((n + 15) / 16)).map
      (List.length ∘ fun i => encB (Gcm.ctrBlock nonce (2 + i))))
      = (List.range ((n + 15) / 16)).map (fun _ => 16) := by
    refine List.map_congr_left ?_
    intro i _
    exact hE _ (ctrBlock_shape hn hnb _).1 (ctrBlock_shape hn hnb _).2
  rw [hmap, List.map_const', List.sum_replicate, List.length_range, smul_eq_mul]
  omega

theorem keystream_lt {encB : List Nat → List Nat} {nonce : List Nat}
    (hn : nonce.length = 12) (hnb : ∀ x ∈ nonce, x < 256)
    (hEb : ∀ b, b.length = 16 → (∀ x ∈ b, x < 256) → ∀ x ∈ encB b, x < 256) (n : Nat) :
    ∀ x ∈ Gcm.keystream encB nonce n, x < 256 := by
  intro x hx
  rw [Gcm.keystream] at hx
  have hx2 := List.mem_of_mem_take hx
  rw [List.mem_flatten] at hx2
  obtain ⟨l, hl, hxl⟩ := hx2
  rw [List.mem_map] at hl
  obtain ⟨i, _, rfl⟩ := hl
  exact hEb _ (ctrBlock_shape hn hnb _).1 (ctrBlock_shape hn hnb _).2 x hxl

theorem tag_shape {encB : List Nat → List Nat} {nonce ct : List Nat}
    (hn : nonce.length = 12) (hnb : ∀ x ∈ nonce, x < 256)
    (hE : ∀ b, b.length = 16 → (∀ x ∈ b, x < 256) → (encB b).length = 16)
    (hEb : ∀ b, b.length = 16 → (∀ x ∈ b, x < 256) → ∀ x ∈ encB b, x < 256) :
    (Gcm.tag encB nonce ct).length = 16 ∧ ∀ x ∈ Gcm.tag encB nonce ct, x < 256 := by
  have hctr := ctrBlock_shape hn hnb 1
  constructor
  · rw [Gcm.tag, List.length_zipWith, hE _ hctr.1 hctr.2, toBytesBE_length]
    simp
  · rw [Gcm.tag]
    exact zipxor_lt (hEb _ hctr.1 hctr.2) (toBytesBE_lt _ _)

theorem zipxor_cancel : ∀ (a ks : List Nat), a.length ≤ ks.length →
    List.zipWith (· ^^^ ·) (List.zipWith (· ^^^ ·) a ks) ks = a := by
  intro a
  induction a with
  | nil =>
    intro ks _
    simp
  | cons x t ih =>
    intro ks hlen
    cases ks with
    | nil => simp at hlen
    | cons k u =>
      simp only [List.zipWith_cons_cons, List.cons.injEq]
      refine ⟨Nat.xor_cancel_right _ _, ih u (by simpa using hlen)⟩

/-! ## Claim theorems -/

/-- C10: a PATCH project update changes only the fields the request
supplies among name, branch, root directory, build command, start command
and port; a field supplied as null keeps its prior value; and the id,
owner, slug, repository full name, repository URL, webhook id, webhook
secret and (through this handler, which never supplies it) runtime are
unchanged by every update. -/
theorem c10_update_frame (p : Project) (req : UpdateProjectRequest) :
    (HandleUpdateProject p req).id = p.id ∧
    (HandleUpdateProject p req).userId = p.userId ∧
    (HandleUpdateProject p req).slug = p.slug ∧
    (HandleUpdateProject p req).repoFullName = p.repoFullName ∧
    (HandleUpdateProject p req).repoURL = p.repoURL ∧
    (HandleUpdateProject p req).webhookId = p.webhookId ∧
    (HandleUpdateProject p req).webhookSecret = p.webhookSecret ∧
    (HandleUpdateProject p req).runtime = p.runtime ∧
    (HandleUpdateProject p req).name = req.name.getD p.name ∧
    (HandleUpdateProject p req).branch = req.branch.getD p.branch ∧
    (HandleUpdateProject p req).rootDirectory = req.rootDirectory.getD p.rootDirectory ∧
    (HandleUpdateProject p req).buildCommand = req.buildCommand.or p.buildCommand ∧
    (HandleUpdateProject p req).startCommand = req.startCommand.or p.startCommand ∧
    (HandleUpdateProject p req).port = req.port.getD p.port := by
  simp [HandleUpdateProject, UpdateProject]

/-- C8: the value field of every environment-variable API response is the
fixed masked placeholder, for the listing response and for the
create-or-update response alike, and it does not depend on the stored
sealed value; the cleartext appears only through GetEnvVarsAsMap, which
applies the dedicated decryption function. -/
theorem c8_secret_opacity :
    (∀ (l : List EnvVar) (d : EnvVarDisplay), d ∈ listEnvVarsResponse l →
      d.value = maskedValue) ∧
    (∀ e : EnvVar, (createEnvVarResponse e).value = maskedValue) ∧
    (∀ (e : EnvVar) (v : String),
      createEnvVarResponse { e with valueEncrypted := v } = createEnvVarResponse e) := by
  refine ⟨?_, fun e => rfl, fun e v => rfl⟩
  intro l d hd
  simp only [listEnvVarsResponse, ToDisplayList, List.mem_map] at hd
  obtain ⟨e, _, rfl⟩ := hd
  rfl

/-- C8 witness at a concrete variable list. -/
theorem c8_secret_opacity_witness :
    ((⟨"i1", "API_KEY", maskedValue⟩ : EnvVarDisplay) ∈
      listEnvVarsResponse [⟨"i1", "p1", "API_KEY", "sealed"⟩]) ∧
    (⟨"i1", "API_KEY", maskedValue⟩ : EnvVarDisplay).value = maskedValue :=
  ⟨by decide,
   c8_secret_opacity.1 [⟨"i1", "p1", "API_KEY", "sealed"⟩]
     ⟨"i1", "API_KEY", maskedValue⟩ (by decide)⟩

/-- C9 counterexample: a user-defined PORT is not preserved.  With stored
variable PORT equal to 9999 and listen port 3000, the environment handed
to the container maps PORT to 3000 and the original binding is gone, both
for the mapping function and for the deploy worker itself. -/
theorem c9_counterexample :
    containerEnv [("PORT", "9999")] 3000 = [("PORT", "3000")] ∧
    (("PORT", "9999") ∉ containerEnv [("PORT", "9999")] 3000) ∧
    (HandleDeployTask ⟨true, "cid"⟩ "example.dev" (.ok [("PORT", "9999")]) 0
        ⟨"d1", "p1", "app", "img", 3000⟩
        [⟨"d1", "p1", "sha", .deploying, some "img", none, none, none, none, none⟩]).env
      = [("PORT", "3000")] := by
  decide

/-- C9 amended: the deploy worker always assigns PORT to the listen port,
overwriting any user-defined PORT; bindings of every other key are passed
through unchanged; and the environment the worker hands to the container
is exactly this mapping. -/
theorem c9_amended :
    (∀ (env0 : List (String × String)) (port : Nat),
      (containerEnv env0 port).lookup "PORT" = some (toString port)) ∧
    (∀ (env0 : List (String × String)) (port : Nat) (k v : String), k ≠ "PORT" →
      (((k, v) ∈ containerEnv env0 port) ↔ (k, v) ∈ env0)) ∧
    (∀ (ext : DeployExternals) (bd : String) (env0 : List (String × String))
        (now : Nat) (p : DeployPayload) (db : Db) (d : DeploymentRow),
      d ∈ db → d.id = p.deploymentId →
      (HandleDeployTask ext bd (.ok env0) now p db).env = containerEnv env0 p.port) := by
  refine ⟨fun env0 port => lookup_mapInsert _ _ env0,
    fun env0 port k v hk => mem_mapInsert_of_ne env0 hk, ?_⟩
  intro ext bd env0 now p db d hd hid
  have hc := countP_eq_ne_zero hd hid
  simp only [HandleDeployTask, UpdateDeploymentStatus, hc, if_false, containerEnv]
  split
  · rfl
  · split <;> rfl

/-- C9 amended witness at a concrete environment. -/
theorem c9_amended_witness :
    (containerEnv [("API_KEY", "secret")] 3000).lookup "PORT" = some (toString 3000) ∧
    "API_KEY" ≠ "PORT" ∧
    ((("API_KEY", "secret") ∈ containerEnv [("API_KEY", "secret")] 3000) ↔
      ("API_KEY", "secret") ∈ [("API_KEY", "secret")]) :=
  ⟨c9_amended.1 [("API_KEY", "secret")] 3000, by decide,
   c9_amended.2.1 [("API_KEY", "secret")] 3000 "API_KEY" "secret" (by decide)⟩

theorem collapseHyphens_all {P : Char → Prop} :
    ∀ l : List Char, (∀ c ∈ l, P c) → ∀ c ∈ collapseHyphens l, P c := by
  intro l
  induction l with
  | nil => simp [collapseHyphens]
  | cons c1 t ih =>
    cases t with
    | nil =>
      intro hl c hc
      simp only [collapseHyphens, List.mem_singleton] at hc
      exact hc ▸ hl c1 (List.mem_cons_self _ _)
    | cons c2 rest =>
      intro hl c hc
      rw [collapseHyphens] at hc
      split at hc
      · exact ih (fun d hd => hl d (List.mem_cons_of_mem _ hd)) c hc
      · rcases List.mem_cons.mp hc with rfl | hc2
        · exact hl c (List.mem_cons_self _ _)
        · exact ih (fun d hd => hl d (List.mem_cons_of_mem _ hd)) c hc2

theorem head_dropWhile_false (p : Char → Bool) :
    ∀ (l : List Char) (c : Char), (l.dropWhile p).head? = some c → p c = false := by
  intro l
  induction l with
  | nil => intro c h; simp [List.dropWhile] at h
  | cons a t ih =>
    intro c h
    rw [List.dropWhile] at h
    by_cases hp : p a = true
    · rw [hp] at h
      exact ih c h
    · have hpa : p a = false := by
        cases hq : p a
        · rfl
        · exact absurd hq hp
      rw [hpa] at h
      simp only [List.head?_cons, Option.some.injEq] at h
      exact h ▸ hpa

theorem head?_of_leading {l1 l2 : List Char} (h : l1 <+: l2) (c : Char)
    (hc : l1.head? = some c) : l2.head? = some c := by
  obtain ⟨t, rfl⟩ := h
  cases l1 with
  | nil => simp at hc
  | cons a u => simpa using hc

theorem head?_take_fifty (l : List Char) : (l.take 50).head? = l.head? := by
  cases l <;> rfl

theorem head_trim_ne_dash (l : List Char) (c : Char)
    (hc : ((((l.dropWhile (· == '-')).reverse.dropWhile (· == '-')).reverse).take 50).head?
      = some c) : c ≠ '-' := by
  rw [head?_take_fifty] at hc
  have hpre : ((l.dropWhile (· == '-')).reverse.dropWhile (· == '-')).reverse
      <+: l.dropWhile (· == '-') := by
    conv_rhs => rw [← List.reverse_reverse (l.dropWhile (· == '-'))]
    exact List.reverse_prefix.mpr (List.dropWhile_suffix _)
  have hhead := head?_of_leading hpre c hc
  have := head_dropWhile_false (· == '-') _ c hhead
  simpa using this

theorem slugCandidateAt_length (slug : String) :
    ∀ k, (slugCandidateAt slug k).length = slug.length + 5 * k := by
  intro k
  induction k generalizing slug with
  | zero => simp [slugCandidateAt]
  | succ j ih =>
    rw [slugCandidateAt, ih]
    have h1 : "-".length = 1 := rfl
    have h2 : randomSuffix.length = 4 := by decide
    simp only [String.length_append, h1, h2]
    omega

theorem ensureUniqueSlug_free : ∀ (fuel : Nat) (taken : List String) (slug : String),
    (∃ k < fuel, slugCandidateAt slug k ∉ taken) →
    ensureUniqueSlug fuel taken slug ∉ taken := by
  intro fuel
  induction fuel with
  | zero =>
    rintro taken slug ⟨k, hk, _⟩
    omega
  | succ f ih =>
    rintro taken slug ⟨k, hk, hfree⟩
    rw [ensureUniqueSlug]
    by_cases hmem : taken.contains slug = true
    · rw [if_pos hmem]
      cases k with
      | zero => exact absurd (List.mem_of_elem_eq_true hmem) (by simpa [slugCandidateAt] using hfree)
      | succ j =>
        refine ih taken _ ⟨j, by omega, ?_⟩
        rw [slugCandidateAt] at hfree
        exact hfree
    · rw [if_neg hmem]
      intro hin
      exact hmem (List.elem_eq_true_of_mem hin)

theorem exists_free_candidate (taken : List String) (slug : String) :
    ∃ k < taken.length + 1, slugCandidateAt slug k ∉ taken := by
  by_contra hall
  push_neg at hall
  have hinj : Function.Injective (slugCandidateAt slug) := by
    intro a b hab
    have := congrArg String.length hab
    rw [slugCandidateAt_length, slugCandidateAt_length] at this
    omega
  have hnodup : ((List.range (taken.length + 1)).map (slugCandidateAt slug)).Nodup :=
    (List.nodup_range _).map hinj
  have hsub : ((List.range (taken.length + 1)).map (slugCandidateAt slug)).toFinset
      ⊆ taken.toFinset := by
    intro x hx
    rw [List.mem_toFinset, List.mem_map] at hx
    obtain ⟨k, hk, rfl⟩ := hx
    rw [List.mem_toFinset]
    exact hall k (List.mem_range.mp hk)
  have hcard1 : ((List.range (taken.length + 1)).map (slugCandidateAt slug)).toFinset.card
      = taken.length + 1 := by
    rw [List.toFinset_card_of_nodup hnodup]
    simp
  have hcard2 : taken.toFinset.card ≤ taken.length := taken.toFinset_card_le
  have := Finset.card_le_card hsub
  omega

/-- C7 counterexample: the slug allocated for the project name 3D App is
3d-app (the uniqueness loop returns the candidate unchanged when free),
which does not match the claimed anchored pattern because it starts with
a digit; the candidate derivation removes a dot instead of replacing it
with a hyphen, diverging from the spec wording; and the collision suffix
is the fixed string abcd, not random. -/
theorem c7_counterexample :
    generateSlug "3D App" = "3d-app" ∧
    ensureUniqueSlug 1 [] (generateSlug "3D App") = "3d-app" ∧
    matchesSlugPattern "3d-app" = false ∧
    generateSlug "a.b" = "ab" ∧
    specSlugCandidate "a.b" = "a-b" ∧
    randomSuffix = "abcd" := by
  decide

/-- C7 amended: every generated candidate uses only lowercase letters,
digits and hyphens, never starts with a hyphen, and is at most 50
characters (it may be empty or start with a digit, and an explicitly
supplied slug bypasses generation entirely); the collision suffix is the
fixed string abcd; and the uniqueness retry loop, given fuel exceeding
the number of taken slugs, returns a slug that is not taken. -/
theorem c7_amended :
    (∀ name : String,
      (generateSlug name).length ≤ 50 ∧
      (∀ c ∈ (generateSlug name).toList,
        ('a' ≤ c ∧ c ≤ 'z') ∨ ('0' ≤ c ∧ c ≤ '9') ∨ c = '-') ∧
      (∀ c, (generateSlug name).toList.head? = some c → c ≠ '-')) ∧
    randomSuffix = "abcd" ∧
    (∀ (taken : List String) (slug : String),
      ensureUniqueSlug (taken.length + 1) taken slug ∉ taken) := by
  refine ⟨?_, by decide, fun taken slug =>
    ensureUniqueSlug_free _ taken slug (exists_free_candidate taken slug)⟩
  intro name
  refine ⟨?_, ?_, ?_⟩
  · show (String.mk _).length ≤ 50
    simp only [String.length, List.length_take]
    omega
  · intro c hc
    simp only [generateSlug, String.toList] at hc
    have hc5 := List.mem_of_mem_take hc
    rw [List.mem_reverse] at hc5
    have hc4 := (List.dropWhile_sublist _).subset hc5
    rw [List.mem_reverse] at hc4
    have hc3 := (List.dropWhile_sublist _).subset hc4
    refine collapseHyphens_all
      (P := fun c => ('a' ≤ c ∧ c ≤ 'z') ∨ ('0' ≤ c ∧ c ≤ '9') ∨ c = '-')
      _ ?_ c hc3
    intro d hd
    have := (List.mem_filter.mp hd).2
    have h2 : ('a' ≤ d ∧ d ≤ 'z' ∨ '0' ≤ d ∧ d ≤ '9') ∨ d = '-' := by
      simpa [Bool.or_eq_true, Bool.and_eq_true, decide_eq_true_eq] using this
    tauto
  · intro c hc
    simp only [generateSlug, String.toList] at hc
    exact head_trim_ne_dash _ c hc

/-- C7 amended witness at a concrete name and taken set. -/
theorem c7_amended_witness :
    (generateSlug "My-App").length ≤ 50 ∧
    ('m' ∈ (generateSlug "My-App").toList →
      ('a' ≤ 'm' ∧ 'm' ≤ 'z') ∨ ('0' ≤ 'm' ∧ 'm' ≤ '9') ∨ 'm' = '-') ∧
    ensureUniqueSlug (["my-app"].length + 1) ["my-app"] "my-app" ∉ ["my-app"] :=
  ⟨((c7_amended.1 "My-App").1),
   fun h => (c7_amended.1 "My-App").2.1 'm' h,
   c7_amended.2.2 ["my-app"] "my-app"⟩

/-- C5: a push event that is gated out (deleted ref, missing head commit,
all-zeros after SHA, or a branch other than the configured one) yields a
success response from the webhook intake, creates no deployment row and
enqueues no build task, provided the request carries a valid signature
for the project's stored secret. -/
theorem c5_gating (body : List Nat) (sig : String) (event : PushEvent)
    (p : Project) (secret : String)
    (hsec : p.webhookSecret = some secret) (hne : ¬ secret = "")
    (hsig : ValidateSignature body sig secret = .ok ())
    (hgate : event.deleted = true ∨ event.headCommit = none ∨
      event.after = "0000000000000000000000000000000000000000" ∨
      GetBranch event ≠ p.branch) :
    HandleGitHubWebhook "push" body sig event (some p) = ⟨200, false, false⟩ := by
  rw [HandleGitHubWebhook]
  rw [if_neg (by simp : ¬ ("push" ≠ "push"))]
  simp only [hsec, hsig, if_neg hne]
  cases hsd : ShouldDeploy event
  · simp [hsd]
  · have hb : GetBranch event ≠ p.branch := by
      rcases hgate with h | h | h | h
      · simp [ShouldDeploy, h] at hsd
      · simp [ShouldDeploy, h] at hsd
      · simp [ShouldDeploy, h] at hsd
      · exact h
    simp [hsd, hb]

/-- C5 witness: a deleted-ref push with a valid signature is acknowledged
with success and triggers nothing. -/
theorem c5_gating_witness :
    HandleGitHubWebhook "push" (strBytes "gated-payload")
        ("sha256=" ++ hexEncode (hmacSha256 (strBytes "s3cret-99") (strBytes "gated-payload")))
        ⟨"refs/heads/main", "b", "a1b2c3", true, some ⟨"msg", "an", "au"⟩, "o/r", "pn"⟩
        (some ⟨"p1", "u1", "app", "app", "o/r", "url", "main", ".", none, none, none,
          3000, some 1, some "s3cret-99"⟩)
      = ⟨200, false, false⟩ :=
  c5_gating (strBytes "gated-payload")
    ("sha256=" ++ hexEncode (hmacSha256 (strBytes "s3cret-99") (strBytes "gated-payload")))
    ⟨"refs/heads/main", "b", "a1b2c3", true, some ⟨"msg", "an", "au"⟩, "o/r", "pn"⟩
    ⟨"p1", "u1", "app", "app", "o/r", "url", "main", ".", none, none, none,
      3000, some 1, some "s3cret-99"⟩
    "s3cret-99" rfl (by decide) (by decide) (Or.inl rfl)

/-- C6 amended: sealing round-trips.  For any plaintext byte sequence
under a valid key (at least 32 ASCII bytes) and any fresh 12-byte nonce,
decrypting the sealed form returns the original plaintext.  (Altering a
byte of the sealed base64 form does not always fail: see the
counterexample for the non-strict trailing-bit case.) -/
theorem c6_roundtrip (key : String) (nonce v : List Nat) (s : String)
    (hk : 32 ≤ (strBytes key).length) (hkb : ∀ b ∈ strBytes key, b < 256)
    (hn : nonce.length = 12) (hnb : ∀ b ∈ nonce, b < 256)
    (hvb : ∀ b ∈ v, b < 256)
    (hs : Crypto.Encrypt key nonce v = .ok s) :
    Crypto.Decrypt key s = .ok v := by
  have hkey0 : ¬ key = "" := by
    intro h
    rw [h] at hk
    simp [strBytes] at hk
  have hkey : Crypto.initKey key = .ok ((strBytes key).take 32) := by
    rw [Crypto.initKey, if_neg hkey0, if_neg (by omega)]
  rw [Crypto.Encrypt, hkey] at hs
  simp only [Except.ok.injEq] at hs
  subst hs
  have hkl : ((strBytes key).take 32).length = 32 := by
    rw [List.length_take]
    omega
  have hkbb : ∀ x ∈ (strBytes key).take 32, x < 256 :=
    fun x hx => hkb x (List.mem_of_mem_take hx)
  have hE : ∀ b : List Nat, b.length = 16 → (∀ x ∈ b, x < 256) →
      (Aes.encryptBlock ((strBytes key).take 32) b).length = 16 :=
    fun b h1 h2 => (encryptBlock_shape hkl hkbb h1 h2).1
  have hEb : ∀ b : List Nat, b.length = 16 → (∀ x ∈ b, x < 256) →
      ∀ x ∈ Aes.encryptBlock ((strBytes key).take 32) b, x < 256 :=
    fun b h1 h2 => (encryptBlock_shape hkl hkbb h1 h2).2
  have hksl : (Gcm.keystream (Aes.encryptBlock ((strBytes key).take 32)) nonce
      v.length).length = v.length := keystream_length hn hnb hE _
  have hksb := @keystream_lt (Aes.encryptBlock ((strBytes key).take 32)) nonce
    hn hnb hEb v.length
  have hctl : (List.zipWith (· ^^^ ·) v
      (Gcm.keystream (Aes.encryptBlock ((strBytes key).take 32)) nonce
        v.length)).length = v.length := by
    rw [List.length_zipWith, hksl]
    simp
  have hctb : ∀ x ∈ List.zipWith (· ^^^ ·) v
      (Gcm.keystream (Aes.encryptBlock ((strBytes key).take 32)) nonce v.length),
      x < 256 := zipxor_lt hvb hksb
  have htag := @tag_shape (Aes.encryptBlock ((strBytes key).take 32)) nonce
    (List.zipWith (· ^^^ ·) v
      (Gcm.keystream (Aes.encryptBlock ((strBytes key).take 32)) nonce v.length))
    hn hnb hE hEb
  have hsealed : Gcm.gcmSeal (Aes.encryptBlock ((strBytes key).take 32)) nonce v
      = nonce ++ (List.zipWith (· ^^^ ·) v
          (Gcm.keystream (Aes.encryptBlock ((strBytes key).take 32)) nonce v.length)
        ++ Gcm.tag (Aes.encryptBlock ((strBytes key).take 32)) nonce
          (List.zipWith (· ^^^ ·) v
            (Gcm.keystream (Aes.encryptBlock ((strBytes key).take 32)) nonce
              v.length))) := by
    rw [Gcm.gcmSeal, List.append_assoc]
  have hbytes : ∀ b ∈ nonce ++ (List.zipWith (· ^^^ ·) v
      (Gcm.keystream (Aes.encryptBlock ((strBytes key).take 32)) nonce v.length)
      ++ Gcm.tag (Aes.encryptBlock ((strBytes key).take 32)) nonce
        (List.zipWith (· ^^^ ·) v
          (Gcm.keystream (Aes.encryptBlock ((strBytes key).take 32)) nonce
            v.length))), b < 256 := by
    intro b hb
    rcases List.mem_append.mp hb with h | h
    · exact hnb b h
    · rcases List.mem_append.mp h with h2 | h2
      · exact hctb b h2
      · exact htag.2 b h2
  have hopen : Gcm.gcmOpen (Aes.encryptBlock ((strBytes key).take 32)) nonce
      (List.zipWith (· ^^^ ·) v
        (Gcm.keystream (Aes.encryptBlock ((strBytes key).take 32)) nonce v.length)
      ++ Gcm.tag (Aes.encryptBlock ((strBytes key).take 32)) nonce
        (List.zipWith (· ^^^ ·) v
          (Gcm.keystream (Aes.encryptBlock ((strBytes key).take 32)) nonce
            v.length))) = some v := by
    have hlen2 : (List.zipWith (· ^^^ ·) v
        (Gcm.keystream (Aes.encryptBlock ((strBytes key).take 32)) nonce v.length)
        ++ Gcm.tag (Aes.encryptBlock ((strBytes key).take 32)) nonce
          (List.zipWith (· ^^^ ·) v
            (Gcm.keystream (Aes.encryptBlock ((strBytes key).take 32)) nonce
              v.length))).length = v.length + 16 := by
      rw [List.length_append, hctl, htag.1]
    rw [Gcm.gcmOpen, if_neg (by rw [hlen2]; omega)]
    have hsub2 : (List.zipWith (· ^^^ ·) v
        (Gcm.keystream (Aes.encryptBlock ((strBytes key).take 32)) nonce v.length)
        ++ Gcm.tag (Aes.encryptBlock ((strBytes key).take 32)) nonce
          (List.zipWith (· ^^^ ·) v
            (Gcm.keystream (Aes.encryptBlock ((strBytes key).take 32)) nonce
              v.length))).length - 16
        = (List.zipWith (· ^^^ ·) v
            (Gcm.keystream (Aes.encryptBlock ((strBytes key).take 32)) nonce
              v.length)).length := by
      rw [hlen2, hctl]
      omega
    rw [hsub2, List.take_left, List.drop_left, if_pos rfl, hctl,
      zipxor_cancel _ _ (le_of_eq hksl.symm)]
  simp only [Crypto.Decrypt, hkey, hsealed, b64_roundtrip _ hbytes]
  rw [if_neg (by
    rw [List.length_append, hn]
    omega)]
  rw [show (12 : Nat) = nonce.length from hn.symm, List.take_left, List.drop_left]
  simp only [hopen]

/-- C6 round-trip witness at a concrete key, nonce and plaintext. -/
theorem c6_roundtrip_witness :
    Crypto.Decrypt "0123456789abcdef0123456789abcdef"
        "AAAAAAAAAAAAAAAAj3TIQJEtS6GB5VljI/3Lr6g=" = .ok [65] :=
  c6_roundtrip "0123456789abcdef0123456789abcdef" (List.replicate 12 0) [65]
    "AAAAAAAAAAAAAAAAj3TIQJEtS6GB5VljI/3Lr6g="
    (by decide) (by decide) (by decide) (by decide) (by decide) (by decide)

/-- C6 counterexample: altering a byte of the sealed form does not always
yield a decryption failure.  The sealed form of the one-byte plaintext 65
under a valid key and the all-zero nonce ends in the base64 character g
followed by padding; changing that character to h alters only the unused
trailing bits of the final group, which the non-strict Go decoder
ignores, so Decrypt returns the original plaintext, not an error. -/
theorem c6_counterexample :
    Crypto.Encrypt "0123456789abcdef0123456789abcdef" (List.replicate 12 0) [65]
      = .ok "AAAAAAAAAAAAAAAAj3TIQJEtS6GB5VljI/3Lr6g=" ∧
    String.mk ((("AAAAAAAAAAAAAAAAj3TIQJEtS6GB5VljI/3Lr6g=").toList.set 38 'h'))
      = "AAAAAAAAAAAAAAAAj3TIQJEtS6GB5VljI/3Lr6h=" ∧
    "AAAAAAAAAAAAAAAAj3TIQJEtS6GB5VljI/3Lr6h="
      ≠ "AAAAAAAAAAAAAAAAj3TIQJEtS6GB5VljI/3Lr6g=" ∧
    Crypto.Decrypt "0123456789abcdef0123456789abcdef"
      "AAAAAAAAAAAAAAAAj3TIQJEtS6GB5VljI/3Lr6h=" = .ok [65] := by
  refine ⟨by decide, by decide, by decide, by decide⟩

/-- C1: the intake never decrypts the stored webhook secret.  Project
creation seals the cleartext secret with crypto.Encrypt before storing it,
and the webhook handler passes the stored (sealed) value straight to
ValidateSignature.  At this concrete deployable push request, the
signature computed by the reference HMAC-SHA-256 under the cleartext
secret shared with GitHub passes ValidateSignature against the cleartext,
yet the intake rejects the same request with 401 and creates nothing,
because it verifies against the sealed value. -/
theorem c1_code_bug :
    storeWebhookSecret "0123456789abcdef0123456789abcdef" (List.replicate 12 0)
        "whsec-0123456789abcdef"
      = .ok "AAAAAAAAAAAAAAAAuRvSZHEub2ndHrW9Lq5oazfGJ24w2uTxl/8O22k3O1YoYQhQ03Q=" ∧
    ValidateSignature (strBytes "hello-push-payload")
        ("sha256=" ++ hexEncode (hmacSha256 (strBytes "whsec-0123456789abcdef")
          (strBytes "hello-push-payload")))
        "whsec-0123456789abcdef"
      = .ok () ∧
    HandleGitHubWebhook "push" (strBytes "hello-push-payload")
        ("sha256=" ++ hexEncode (hmacSha256 (strBytes "whsec-0123456789abcdef")
          (strBytes "hello-push-payload")))
        ⟨"refs/heads/main", "b0", "a1b2c3d4", false, some ⟨"msg", "an", "au"⟩,
          "o/r", "pn"⟩
        (some ⟨"p1", "u1", "app", "app", "o/r", "url", "main", ".", none, none,
          none, 3000, some 1,
          some "AAAAAAAAAAAAAAAAuRvSZHEub2ndHrW9Lq5oazfGJ24w2uTxl/8O22k3O1YoYQhQ03Q="⟩)
      = ⟨401, false, false⟩ := by
  refine ⟨by decide, by decide, by decide⟩

theorem updateById_isOk (db : Db) (id : String) (x : Db) :
    (if db.countP (fun r => r.id == id) = 0
      then (Except.error DbError.notFound : Except DbError Db)
      else Except.ok x).isOk = true ↔ ∃ d ∈ db, d.id = id := by
  by_cases h : db.countP (fun r => r.id == id) = 0
  · rw [if_pos h]
    constructor
    · intro hfalse
      exact absurd hfalse (by simp [Except.isOk, Except.toBool])
    · rintro ⟨d, hd, hid⟩
      exact absurd h (countP_eq_ne_zero hd hid)
  · rw [if_neg h]
    constructor
    · intro _
      obtain ⟨r, hr, hp⟩ := List.countP_pos_iff.mp (Nat.pos_of_ne_zero h)
      exact ⟨r, hr, by simpa using hp⟩
    · intro _
      simp [Except.isOk, Except.toBool]

theorem mem_map_update {db : Db} {d : DeploymentRow} (f : DeploymentRow → DeploymentRow)
    (hd : d ∈ db) :
    f d ∈ db.map (fun r => if r.id == d.id then f r else r) := by
  have h : (fun r => if r.id == d.id then f r else r) d = f d := by simp
  exact h ▸ List.mem_map_of_mem _ hd

/-- C2 counterexample: StartDeploymentBuild is not a conditional
transition.  A deployment already live is moved back to building (with a
fresh build-start stamp and its stale completion stamp retained) instead
of being rejected, so a backward transition live to building is
observable. -/
theorem c2_counterexample :
    StartDeploymentBuild 5 "d1"
        [⟨"d1", "p1", "sha", .live, some "img", some "cid", some "u", none,
          some 1, some 2⟩]
      = .ok [⟨"d1", "p1", "sha", .building, some "img", some "cid", some "u",
          none, some 5, some 2⟩] := by
  decide

/-- C2 amended: only cancellation is conditional on the current status.
Each of StartDeploymentBuild, SetDeploymentBuilt, SetDeploymentLive,
SetDeploymentFailed and UpdateDeploymentStatus is an unconditional UPDATE
keyed only on the row id: it succeeds exactly when a row with that id
exists, whatever that row's current status, and it then rewrites the
row's status as coded, so backward transitions such as live back to
building are observable; CancelDeployment succeeds exactly when the row
is in pending, building or deploying. -/
theorem c2_amended :
    (∀ (db : Db) (id : String) (now : Nat),
      (StartDeploymentBuild now id db).isOk = true ↔ ∃ d ∈ db, d.id = id) ∧
    (∀ (db : Db) (id tag : String),
      (SetDeploymentBuilt id tag db).isOk = true ↔ ∃ d ∈ db, d.id = id) ∧
    (∀ (db : Db) (id cid url : String) (now : Nat),
      (SetDeploymentLive now id cid url db).isOk = true ↔ ∃ d ∈ db, d.id = id) ∧
    (∀ (db : Db) (id msg : String) (now : Nat),
      (SetDeploymentFailed now id msg db).isOk = true ↔ ∃ d ∈ db, d.id = id) ∧
    (∀ (db : Db) (id : String) (st : DeploymentStatus) (em : Option String),
      (UpdateDeploymentStatus id st em db).isOk = true ↔ ∃ d ∈ db, d.id = id) ∧
    (∀ (db : Db) (d : DeploymentRow) (now : Nat), d ∈ db →
      ∀ db2, StartDeploymentBuild now d.id db = .ok db2 →
        { d with status := .building, startedAt := some now } ∈ db2) ∧
    (∀ (db : Db) (d : DeploymentRow) (tag : String), d ∈ db →
      ∀ db2, SetDeploymentBuilt d.id tag db = .ok db2 →
        { d with status := .deploying, imageTag := some tag } ∈ db2) ∧
    (∀ (db : Db) (d : DeploymentRow) (cid url : String) (now : Nat), d ∈ db →
      ∀ db2, SetDeploymentLive now d.id cid url db = .ok db2 →
        { d with status := .live, containerId := some cid, url := some url,
                 completedAt := some now } ∈ db2) ∧
    (∀ (db : Db) (d : DeploymentRow) (msg : String) (now : Nat), d ∈ db →
      ∀ db2, SetDeploymentFailed now d.id msg db = .ok db2 →
        { d with status := .failed, errorMessage := some msg,
                 completedAt := some now } ∈ db2) ∧
    (∀ (db : Db) (d : DeploymentRow) (st : DeploymentStatus) (em : Option String),
      d ∈ db →
      ∀ db2, UpdateDeploymentStatus d.id st em db = .ok db2 →
        { d with status := st, errorMessage := em } ∈ db2) ∧
    (∀ (db : Db) (id : String) (now : Nat),
      (CancelDeployment now id db).isOk = true ↔
        ∃ d ∈ db, d.id = id ∧
          (d.status = .pending ∨ d.status = .building ∨ d.status = .deploying)) := by
  refine ⟨?_, ?_, ?_, ?_, ?_, ?_, ?_, ?_, ?_, ?_, ?_⟩
  · intro db id now
    rw [StartDeploymentBuild]
    exact updateById_isOk db id _
  · intro db id tag
    rw [SetDeploymentBuilt]
    exact updateById_isOk db id _
  · intro db id cid url now
    rw [SetDeploymentLive]
    exact updateById_isOk db id _
  · intro db id msg now
    rw [SetDeploymentFailed]
    exact updateById_isOk db id _
  · intro db id st em
    rw [UpdateDeploymentStatus]
    exact updateById_isOk db id _
  · intro db d now hd db2 h
    rw [StartDeploymentBuild, if_neg (countP_id_ne_zero hd)] at h
    cases h
    exact mem_map_update _ hd
  · intro db d tag hd db2 h
    rw [SetDeploymentBuilt, if_neg (countP_id_ne_zero hd)] at h
    cases h
    exact mem_map_update _ hd
  · intro db d cid url now hd db2 h
    rw [SetDeploymentLive, if_neg (countP_id_ne_zero hd)] at h
    cases h
    exact mem_map_update _ hd
  · intro db d msg now hd db2 h
    rw [SetDeploymentFailed, if_neg (countP_id_ne_zero hd)] at h
    cases h
    exact mem_map_update _ hd
  · intro db d st em hd db2 h
    rw [UpdateDeploymentStatus, if_neg (countP_id_ne_zero hd)] at h
    cases h
    exact mem_map_update _ hd
  · intro db id now
    constructor
    · intro htrue
      by_cases h : db.countP (fun r =>
          r.id == id && (r.status == DeploymentStatus.pending ||
            r.status == DeploymentStatus.building ||
            r.status == DeploymentStatus.deploying)) = 0
      · simp [CancelDeployment, h, Except.isOk, Except.toBool] at htrue
      · obtain ⟨r, hr, hhit⟩ := List.countP_pos_iff.mp (Nat.pos_of_ne_zero h)
        simp only [Bool.and_eq_true, Bool.or_eq_true, beq_iff_eq] at hhit
        exact ⟨r, hr, hhit.1, by tauto⟩
    · rintro ⟨d, hd, hid, hst⟩
      have hc : db.countP (fun r =>
          r.id == id && (r.status == DeploymentStatus.pending ||
            r.status == DeploymentStatus.building ||
            r.status == DeploymentStatus.deploying)) ≠ 0 := by
        have : 0 < db.countP (fun r =>
            r.id == id && (r.status == DeploymentStatus.pending ||
              r.status == DeploymentStatus.building ||
              r.status == DeploymentStatus.deploying)) :=
          List.countP_pos_iff.mpr ⟨d, hd, by
            simp only [Bool.and_eq_true, Bool.or_eq_true, beq_iff_eq]
            exact ⟨hid, by tauto⟩⟩
        omega
      simp [CancelDeployment, hc, Except.isOk, Except.toBool]

theorem exists_id_in_map {db : Db} {id : String} (f : DeploymentRow → DeploymentRow)
    (hf : ∀ r, (f r).id = r.id) (hex : ∃ d ∈ db, d.id = id) :
    ∃ d ∈ db.map f, d.id = id := by
  obtain ⟨d, hd, hid⟩ := hex
  exact ⟨f d, List.mem_map_of_mem f hd, (hf d).trans hid⟩

theorem countP_of_exists {db : Db} {id : String} (hex : ∃ d ∈ db, d.id = id) :
    db.countP (fun r => r.id == id) ≠ 0 := by
  obtain ⟨d, hd, hid⟩ := hex
  exact countP_eq_ne_zero hd hid

/-- C3 counterexample: the deploy worker supersedes other live rows
before, not after, promoting its own row to live, and under an
interleaving of two concurrent deploys of the same project both rows end
live: the per-worker mutation order is the program order of
HandleDeployTask (checked against the worker itself on the same table),
both program orders embed into the schedule, and the project finishes
with two live deployments. -/
theorem c3_counterexample :
    (deployMutations ⟨"dA", "p1", "app", "imgA", 3000⟩ "cA" "dom"
      = [.updateStatus "dA" .deploying none,
         .supersedeOld "p1" "dA",
         .setLive "dA" "cA" "https://app.dom"]) ∧
    ((HandleDeployTask ⟨true, "cA"⟩ "dom" (.ok []) 0
        ⟨"dA", "p1", "app", "imgA", 3000⟩
        [⟨"dA", "p1", "shaA", .deploying, some "imgA", none, none, none, none, none⟩,
         ⟨"dB", "p1", "shaB", .deploying, some "imgB", none, none, none, none, none⟩]).db
      = runMutations 0
          [⟨"dA", "p1", "shaA", .deploying, some "imgA", none, none, none, none, none⟩,
           ⟨"dB", "p1", "shaB", .deploying, some "imgB", none, none, none, none, none⟩]
          (deployMutations ⟨"dA", "p1", "app", "imgA", 3000⟩ "cA" "dom")) ∧
    (deployMutations ⟨"dA", "p1", "app", "imgA", 3000⟩ "cA" "dom").Sublist
      [.updateStatus "dA" .deploying none,
       .updateStatus "dB" .deploying none,
       .supersedeOld "p1" "dA",
       .supersedeOld "p1" "dB",
       .setLive "dA" "cA" "https://app.dom",
       .setLive "dB" "cB" "https://app.dom"] ∧
    (deployMutations ⟨"dB", "p1", "app", "imgB", 3000⟩ "cB" "dom").Sublist
      [.updateStatus "dA" .deploying none,
       .updateStatus "dB" .deploying none,
       .supersedeOld "p1" "dA",
       .supersedeOld "p1" "dB",
       .setLive "dA" "cA" "https://app.dom",
       .setLive "dB" "cB" "https://app.dom"] ∧
    liveCount "p1"
      (runMutations 0
        [⟨"dA", "p1", "shaA", .deploying, some "imgA", none, none, none, none, none⟩,
         ⟨"dB", "p1", "shaB", .deploying, some "imgB", none, none, none, none, none⟩]
        [.updateStatus "dA" .deploying none,
         .updateStatus "dB" .deploying none,
         .supersedeOld "p1" "dA",
         .supersedeOld "p1" "dB",
         .setLive "dA" "cA" "https://app.dom",
         .setLive "dB" "cB" "https://app.dom"]) = 2 := by
  decide

/-- C3 amended: on the success path the deploy worker performs, in
program order, the deploying update, then the supersession of every other
live row of the project, then the promotion of its own row to live with
the container id and public URL; consequently a deploy that completes
without interleaving leaves its own row as the only live deployment of
the project. -/
theorem c3_amended :
    (∀ (ext : DeployExternals) (bd : String) (env0 : List (String × String))
        (now : Nat) (p : DeployPayload) (db : Db),
      (∃ d ∈ db, d.id = p.deploymentId) → ext.containerDeployOk = true →
      HandleDeployTask ext bd (.ok env0) now p db
        = ⟨runMutations now db (deployMutations p ext.containerId bd),
           containerEnv env0 p.port, none⟩) ∧
    (∀ (ext : DeployExternals) (bd : String) (env0 : List (String × String))
        (now : Nat) (p : DeployPayload) (db : Db) (r : DeploymentRow),
      (HandleDeployTask ext bd (.ok env0) now p db).err = none →
      r ∈ (HandleDeployTask ext bd (.ok env0) now p db).db →
      r.projectId = p.projectId → r.status = .live →
      r.id = p.deploymentId) := by
  have hpres1 : ∀ (p : DeployPayload) (r : DeploymentRow),
      ((fun r => if r.id == p.deploymentId then
        { r with status := DeploymentStatus.deploying, errorMessage := none }
        else r) r).id = r.id := by
    intro p r
    by_cases h : (r.id == p.deploymentId) = true <;> simp [h]
  have hpres2 : ∀ (now : Nat) (p : DeployPayload) (r : DeploymentRow),
      ((fun r => if r.projectId == p.projectId && r.status == DeploymentStatus.live
          && r.id != p.deploymentId then
        { r with status := DeploymentStatus.superseded, completedAt := some now }
        else r) r).id = r.id := by
    intro now p r
    by_cases h : (r.projectId == p.projectId && r.status == DeploymentStatus.live
        && r.id != p.deploymentId) = true <;> simp [h]
  constructor
  · intro ext bd env0 now p db hex hok
    have hc1 := countP_of_exists hex
    have hex2 : ∃ d ∈ (db.map (fun r => if r.id == p.deploymentId then
        { r with status := DeploymentStatus.deploying, errorMessage := none }
        else r)).map (fun r =>
          if r.projectId == p.projectId && r.status == DeploymentStatus.live
            && r.id != p.deploymentId then
          { r with status := DeploymentStatus.superseded, completedAt := some now }
          else r), d.id = p.deploymentId :=
      exists_id_in_map _ (hpres2 now p) (exists_id_in_map _ (hpres1 p) hex)
    have hc2 := countP_of_exists hex2
    simp only [HandleDeployTask, UpdateDeploymentStatus, if_neg hc1, hok,
      eq_self_iff_true, not_true, if_false, SupersededOldDeployments,
      SetDeploymentLive, if_neg hc2, runMutations, deployMutations,
      List.foldl, applyMutation, containerEnv]
  · intro ext bd env0 now p db r herr hr hproj hlive
    by_cases hc1 : db.countP (fun r => r.id == p.deploymentId) = 0
    · rw [HandleDeployTask, UpdateDeploymentStatus, if_pos hc1] at herr
      simp at herr
    · rw [HandleDeployTask, UpdateDeploymentStatus, if_neg hc1] at herr hr
      simp only [] at herr hr
      by_cases hok : ext.containerDeployOk = true
      · simp only [hok, eq_self_iff_true, not_true, if_false] at herr hr
        by_cases hc2 : (SupersededOldDeployments now p.projectId p.deploymentId
            ((db.map (fun r => if r.id == p.deploymentId then
              { r with status := DeploymentStatus.deploying, errorMessage := none }
              else r)))).countP (fun r => r.id == p.deploymentId) = 0
        · rw [SetDeploymentLive, if_pos hc2] at herr
          simp at herr
        · rw [SetDeploymentLive, if_neg hc2] at hr
          simp only [] at hr
          obtain ⟨r2, hr2, hfr2⟩ := List.mem_map.mp hr
          by_cases hid2 : (r2.id == p.deploymentId) = true
          · rw [if_pos hid2] at hfr2
            subst hfr2
            simpa using hid2
          · rw [if_neg hid2] at hfr2
            subst hfr2
            rw [SupersededOldDeployments] at hr2
            obtain ⟨r1, hr1, hfr1⟩ := List.mem_map.mp hr2
            by_cases hsup : (r1.projectId == p.projectId
                && r1.status == DeploymentStatus.live
                && r1.id != p.deploymentId) = true
            · rw [if_pos hsup] at hfr1
              subst hfr1
              simp at hlive
            · rw [if_neg hsup] at hfr1
              subst hfr1
              have hid1f : (r1.id == p.deploymentId) = false := by
                cases h : (r1.id == p.deploymentId)
                · rfl
                · exact absurd h hid2
              have hcond : (r1.projectId == p.projectId
                  && r1.status == DeploymentStatus.live
                  && r1.id != p.deploymentId) = true := by
                simp only [Bool.and_eq_true, beq_iff_eq, bne, Bool.not_eq_true']
                exact ⟨⟨hproj, hlive⟩, hid1f⟩
              exact absurd hcond hsup
      · rw [if_pos hok] at herr
        simp at herr

/-- C3 amended witness: one successful uninterleaved deploy on a table
with a prior live row leaves only the new row live. -/
theorem c3_amended_witness :
    HandleDeployTask ⟨true, "cA"⟩ "dom" (.ok []) 0
        ⟨"dA", "p1", "app", "imgA", 3000⟩
        [⟨"dA", "p1", "shaA", .deploying, some "imgA", none, none, none, none, none⟩,
         ⟨"dOld", "p1", "shaO", .live, some "imgO", some "cO", some "u", none, none, none⟩]
      = ⟨runMutations 0
          [⟨"dA", "p1", "shaA", .deploying, some "imgA", none, none, none, none, none⟩,
           ⟨"dOld", "p1", "shaO", .live, some "imgO", some "cO", some "u", none, none, none⟩]
          (deployMutations ⟨"dA", "p1", "app", "imgA", 3000⟩ "cA" "dom"),
         containerEnv [] 3000, none⟩ :=
  c3_amended.1 ⟨true, "cA"⟩ "dom" [] 0 ⟨"dA", "p1", "app", "imgA", 3000⟩
    [⟨"dA", "p1", "shaA", .deploying, some "imgA", none, none, none, none, none⟩,
     ⟨"dOld", "p1", "shaO", .live, some "imgO", some "cO", some "u", none, none, none⟩]
    ⟨⟨"dA", "p1", "shaA", .deploying, some "imgA", none, none, none, none, none⟩,
      by decide, rfl⟩ rfl

/-- C4 counterexample: redelivery of a build task is not a no-op.  After
a first fully successful run moves the row to deploying and enqueues one
deploy task, a second delivery of the same task builds again and enqueues
a second deploy task instead of aborting. -/
theorem c4_counterexample :
    (HandleBuildTask ⟨true, true, true, true, true, true⟩ "reg"
        [⟨"p1", "u1", "app", "app", "o/r", "url", "main", ".", none, none, none, 3000,
          none, none⟩] 0
        ⟨"d1", "p1", "c0ffee42aa", "main", "o/r", "url", ".", "", "", "", 3000⟩
        [⟨"d1", "p1", "c0ffee42aa", .pending, none, none, none, none, none, none⟩]).db
      = [⟨"d1", "p1", "c0ffee42aa", .deploying, some "reg/p1:c0ffee42", none, none,
          none, some 0, none⟩] ∧
    (HandleBuildTask ⟨true, true, true, true, true, true⟩ "reg"
        [⟨"p1", "u1", "app", "app", "o/r", "url", "main", ".", none, none, none, 3000,
          none, none⟩] 0
        ⟨"d1", "p1", "c0ffee42aa", "main", "o/r", "url", ".", "", "", "", 3000⟩
        [⟨"d1", "p1", "c0ffee42aa", .pending, none, none, none, none, none, none⟩]).enqueuedDeploys.length
      = 1 ∧
    (HandleBuildTask ⟨true, true, true, true, true, true⟩ "reg"
        [⟨"p1", "u1", "app", "app", "o/r", "url", "main", ".", none, none, none, 3000,
          none, none⟩] 0
        ⟨"d1", "p1", "c0ffee42aa", "main", "o/r", "url", ".", "", "", "", 3000⟩
        [⟨"d1", "p1", "c0ffee42aa", .deploying, some "reg/p1:c0ffee42", none, none,
          none, some 0, none⟩]).imageBuilt = true ∧
    (HandleBuildTask ⟨true, true, true, true, true, true⟩ "reg"
        [⟨"p1", "u1", "app", "app", "o/r", "url", "main", ".", none, none, none, 3000,
          none, none⟩] 0
        ⟨"d1", "p1", "c0ffee42aa", "main", "o/r", "url", ".", "", "", "", 3000⟩
        [⟨"d1", "p1", "c0ffee42aa", .deploying, some "reg/p1:c0ffee42", none, none,
          none, some 0, none⟩]).enqueuedDeploys.length = 1 ∧
    (HandleBuildTask ⟨true, true, true, true, true, true⟩ "reg"
        [⟨"p1", "u1", "app", "app", "o/r", "url", "main", ".", none, none, none, 3000,
          none, none⟩] 0
        ⟨"d1", "p1", "c0ffee42aa", "main", "o/r", "url", ".", "", "", "", 3000⟩
        [⟨"d1", "p1", "c0ffee42aa", .deploying, some "reg/p1:c0ffee42", none, none,
          none, some 0, none⟩]).err = none := by
  decide

/-- C4 amended: the initial build transition is rejected only for a
missing row, and its failure is returned to the broker as an error rather
than silently swallowed; for a row that exists, a delivered build task
performs the build and enqueues a deploy task whatever the row's current
status, so redelivery repeats the work. -/
theorem c4_amended :
    (∀ (ext : BuildExternals) (reg : String) (projects : List Project)
        (now : Nat) (p : BuildPayload) (db : Db),
      db.countP (fun r => r.id == p.deploymentId) = 0 →
      HandleBuildTask ext reg projects now p db
        = ⟨db, [], false, some "failed to start deployment build"⟩) ∧
    (∀ (reg : String) (projects : List Project) (now : Nat) (p : BuildPayload)
        (db : Db) (project : Project),
      (∃ d ∈ db, d.id = p.deploymentId) →
      projects.find? (fun pr => pr.id == p.projectId) = some project →
      (HandleBuildTask ⟨true, true, true, true, true, true⟩ reg projects now p db).imageBuilt
          = true ∧
      (HandleBuildTask ⟨true, true, true, true, true, true⟩ reg projects now p db).enqueuedDeploys
          = [⟨p.deploymentId, p.projectId, project.slug,
              reg ++ "/" ++ p.projectId ++ ":" ++ p.commitSHA.take 8, p.port⟩] ∧
      (HandleBuildTask ⟨true, true, true, true, true, true⟩ reg projects now p db).err
          = none) := by
  constructor
  · intro ext reg projects now p db hc
    simp only [HandleBuildTask, StartDeploymentBuild, if_pos hc]
  · intro reg projects now p db project hex hfind
    have hc1 := countP_of_exists hex
    have hex2 : ∃ d ∈ db.map (fun r => if r.id == p.deploymentId then
        { r with status := DeploymentStatus.building, startedAt := some now }
        else r), d.id = p.deploymentId := by
      refine exists_id_in_map _ ?_ hex
      intro r
      by_cases h : (r.id == p.deploymentId) = true <;> simp [h]
    have hc2 := countP_of_exists hex2
    simp only [HandleBuildTask, StartDeploymentBuild, if_neg hc1,
      eq_self_iff_true, not_true, if_false, and_false, false_and,
      and_self, SetDeploymentBuilt, if_neg hc2, hfind]

/-- C4 amended witness at a concrete redelivery. -/
theorem c4_amended_witness :
    (HandleBuildTask ⟨true, true, true, true, true, true⟩ "reg"
        [⟨"p1", "u1", "app", "app", "o/r", "url", "main", ".", none, none, none, 3000,
          none, none⟩] 0
        ⟨"d1", "p1", "c0ffee42aa", "main", "o/r", "url", ".", "", "", "", 3000⟩
        [⟨"d1", "p1", "c0ffee42aa", .live, none, none, none, none, none, none⟩]).imageBuilt
      = true :=
  (c4_amended.2 "reg"
    [⟨"p1", "u1", "app", "app", "o/r", "url", "main", ".", none, none, none, 3000,
      none, none⟩] 0
    ⟨"d1", "p1", "c0ffee42aa", "main", "o/r", "url", ".", "", "", "", 3000⟩
    [⟨"d1", "p1", "c0ffee42aa", .live, none, none, none, none, none, none⟩]
    ⟨"p1", "u1", "app", "app", "o/r", "url", "main", ".", none, none, none, 3000,
      none, none⟩
    ⟨⟨"d1", "p1", "c0ffee42aa", .live, none, none, none, none, none, none⟩,
      by decide, rfl⟩ (by decide)).1

/-- C2 amended witness: on a concrete one-row table whose row is live,
the unconditional build transition moves the row back to building, and
UpdateDeploymentStatus succeeds on the same live row. -/
theorem c2_amended_witness :
    (⟨"d1", "p1", "sha", .building, none, none, none, none, some 7, some 2⟩ : DeploymentRow)
      ∈ [(⟨"d1", "p1", "sha", .building, none, none, none, none, some 7, some 2⟩ : DeploymentRow)] ∧
    (UpdateDeploymentStatus "d1" .pending none
      [(⟨"d1", "p1", "sha", .live, none, none, none, none, none, some 2⟩ : DeploymentRow)]).isOk
      = true :=
  ⟨c2_amended.2.2.2.2.2.1
     [⟨"d1", "p1", "sha", .live, none, none, none, none, none, some 2⟩]
     ⟨"d1", "p1", "sha", .live, none, none, none, none, none, some 2⟩ 7 (by decide)
     [⟨"d1", "p1", "sha", .building, none, none, none, none, some 7, some 2⟩] (by decide),
   (c2_amended.2.2.2.2.1
     [⟨"d1", "p1", "sha", .live, none, none, none, none, none, some 2⟩]
     "d1" .pending none).mpr
     ⟨⟨"d1", "p1", "sha", .live, none, none, none, none, none, some 2⟩, by decide, rfl⟩⟩

end RcnBuild
